import Mathlib

/-!
Shallow embedding of the server-side game engine of the `catan` repository
(`src/server/src/game-logic/game.ts`, the board module concatenated into the
same file, `src/server/src/types.ts`, and the socket handlers in
`src/server/src/sockets/handlers.ts`).

Modelling conventions, used consistently below:
* JavaScript numbers that the code uses as integral counters are modelled as
  `Int` (so that the subtraction and comparison semantics of the source are
  preserved even on states where a counter could be negative).
* The one floating-point computation (the bank-trade ratio check) is modelled
  over `ℚ` with the literal constant `1/1000` for the source tolerance
  `0.001`; for the integral inputs relevant here the two agree.
* In-place mutation of the object found by `Array.prototype.find` is modelled
  by `updateFirst`, which rewrites exactly the first matching list element.
* `Partial<Resources>` values are modelled as total `Resources` records, a
  missing key being the amount `0` (the source reads missing keys as `0` via
  `|| 0` and skips them in `Object.entries` loops; for amount `0` the two
  behaviours coincide).
* The activity log (`addLogEntry`) stores a `uuid` and a wall-clock timestamp,
  both nondeterministic environment inputs, and is read by no game rule; the
  log is therefore omitted from the state.  Likewise the `uuid` ids of trade
  offers, and the pixel `position` fields of vertices (pure rendering data).
* Sources of randomness (dice, the steal choice, shuffles) become explicit
  parameters.
-/

namespace Catan

/-- ResourceType from `types.ts`. -/
inductive ResourceType
  | wood | brick | sheep | wheat | ore
  deriving DecidableEq

/-- TerrainType from `types.ts` (`ResourceType | 'desert'`). -/
inductive TerrainType
  | wood | brick | sheep | wheat | ore | desert
  deriving DecidableEq

/-- BuildingType from `types.ts`. -/
inductive BuildingType
  | settlement | city
  deriving DecidableEq

/-- GamePhase from `types.ts`. -/
inductive GamePhase
  | waiting | setup_settlement | setup_road | roll | robber_discard
  | robber_move | robber_steal | main | trade | road_building | ended
  deriving DecidableEq

/-- HarborType from `types.ts`; the string tag "3:1" is the `generic`
constructor, the resource-named tags are the 2:1 harbors. -/
inductive HarborType
  | generic | wood | brick | sheep | wheat | ore
  deriving DecidableEq

/-- DevCardType from `types.ts`. -/
inductive DevCardType
  | knight | road_building | year_of_plenty | monopoly | victory_point
  deriving DecidableEq

/-- PlayerColor from `types.ts`. -/
inductive PlayerColor
  | blue | green | coral | violet
  deriving DecidableEq

/-- TradeOffer status field from `types.ts`. -/
inductive TradeStatus
  | pending | accepted | declined | cancelled
  deriving DecidableEq

/-- SetupDirection: the `'forward' | 'reverse'` field of GameState. -/
inductive SetupDirection
  | forward | reverse
  deriving DecidableEq

/-- The five resource kinds in the fixed order the source iterates them
(`['wood', 'brick', 'sheep', 'wheat', 'ore']`). -/
def ResourceType.all : List ResourceType :=
  [.wood, .brick, .sheep, .wheat, .ore]

/-- Resources from `types.ts`: a record with one integer per resource.  The
same shape also models the `Record<ResourceType, number>` of trade ratios. -/
structure Resources where
  wood : Int
  brick : Int
  sheep : Int
  wheat : Int
  ore : Int
  deriving DecidableEq

/-- Read one field of a resource record. -/
def Resources.get (r : Resources) : ResourceType → Int
  | .wood => r.wood
  | .brick => r.brick
  | .sheep => r.sheep
  | .wheat => r.wheat
  | .ore => r.ore

/-- Overwrite one field of a resource record. -/
def Resources.setAmount (r : Resources) : ResourceType → Int → Resources
  | .wood, n => { r with wood := n }
  | .brick, n => { r with brick := n }
  | .sheep, n => { r with sheep := n }
  | .wheat, n => { r with wheat := n }
  | .ore, n => { r with ore := n }

/-- The source statement `player.resources[resource] += amount`. -/
def Resources.addAmount (r : Resources) : ResourceType → Int → Resources
  | .wood, n => { r with wood := r.wood + n }
  | .brick, n => { r with brick := r.brick + n }
  | .sheep, n => { r with sheep := r.sheep + n }
  | .wheat, n => { r with wheat := r.wheat + n }
  | .ore, n => { r with ore := r.ore + n }

/-- Componentwise sum (the effect of `addResources` over a total record). -/
def Resources.add (a b : Resources) : Resources :=
  ⟨a.wood + b.wood, a.brick + b.brick, a.sheep + b.sheep,
   a.wheat + b.wheat, a.ore + b.ore⟩

/-- Componentwise difference (the effect of `deductResources`). -/
def Resources.sub (a b : Resources) : Resources :=
  ⟨a.wood - b.wood, a.brick - b.brick, a.sheep - b.sheep,
   a.wheat - b.wheat, a.ore - b.ore⟩

/-- The all-zero resource record (`createEmptyResources`). -/
def Resources.zero : Resources := ⟨0, 0, 0, 0, 0⟩

/-- A record holding `n` units of the single resource `ρ`. -/
def Resources.single (ρ : ResourceType) (n : Int) : Resources :=
  Resources.zero.setAmount ρ n

/-- getTotalResources (game.ts:343): sum of the five hand counts. -/
def Resources.total (a : Resources) : Int :=
  a.wood + a.brick + a.sheep + a.wheat + a.ore

/-- DevCard from `types.ts` (the `uuid` id kept as opaque string data). -/
structure DevCard where
  id : String
  type : DevCardType
  boughtThisTurn : Bool
  deriving DecidableEq

/-- HexTile from `types.ts` (`number` is `null` for the desert). -/
structure HexTile where
  id : String
  q : Int
  r : Int
  terrain : TerrainType
  number : Option Int
  hasRobber : Bool
  deriving DecidableEq

/-- Vertex from `types.ts`; the pixel `position` (pure rendering data) is
omitted. -/
structure Vertex where
  id : String
  hexIds : List String
  building : Option BuildingType
  playerId : Option String
  harborId : Option String
  isCoastal : Bool
  deriving DecidableEq

/-- Edge from `types.ts`: the two-element `vertexIds` tuple becomes a pair. -/
structure Edge where
  id : String
  vertexIds : String × String
  road : Bool
  playerId : Option String
  deriving DecidableEq

/-- Harbor from `types.ts` (the rendering-only `edgePosition` omitted). -/
structure Harbor where
  id : String
  type : HarborType
  vertexIds : List String
  deriving DecidableEq

/-- Board from `types.ts`. -/
structure Board where
  hexes : List HexTile
  vertices : List Vertex
  edges : List Edge
  harbors : List Harbor
  deriving DecidableEq

/-- Player from `types.ts`. -/
structure Player where
  id : String
  name : String
  color : PlayerColor
  resources : Resources
  victoryPoints : Int
  roadsBuilt : Int
  settlementsBuilt : Int
  citiesBuilt : Int
  longestRoad : Int
  connected : Bool
  devCards : List DevCard
  knightsPlayed : Int
  devCardPlayedThisTurn : Bool
  setupSettlementsPlaced : Int
  lastPlacedVertexId : Option String
  deriving DecidableEq

/-- TradeOffer from `types.ts` (`uuid` id omitted). -/
structure TradeOffer where
  fromPlayerId : String
  toPlayerId : Option String
  offering : Resources
  requesting : Resources
  status : TradeStatus
  deriving DecidableEq

/-- GameSettings from `types.ts`. -/
structure GameSettings where
  maxPlayers : Int
  handLimit : Int
  victoryPointsToWin : Int
  deriving DecidableEq

/-- GameState from `types.ts` (the bounded log omitted, see the module
comment). -/
structure GameState where
  roomCode : String
  phase : GamePhase
  players : List Player
  currentPlayerIndex : Nat
  board : Board
  lastDiceRoll : Option (Int × Int)
  tradeOffer : Option TradeOffer
  winnerId : Option String
  turnNumber : Int
  discardingPlayerIds : List String
  longestRoadPlayerId : Option String
  largestArmyPlayerId : Option String
  settings : GameSettings
  setupRound : Int
  setupDirection : SetupDirection
  devCardDeck : List DevCard
  roadBuildingRoadsLeft : Int
  phaseBeforeRobber : Option GamePhase
  deriving DecidableEq

/-- Rewrite exactly the first element satisfying `q` (the model of finding an
object with `Array.prototype.find` and then mutating it in place). -/
def updateFirst (q : α → Bool) (f : α → α) : List α → List α
  | [] => []
  | a :: l => if q a then f a :: l else a :: updateFirst q f l

/-- Delete exactly the first element satisfying `q` (the model of
`findIndex` followed by `splice(i, 1)`). -/
def removeFirst (q : α → Bool) : List α → List α
  | [] => []
  | a :: l => if q a then l else a :: removeFirst q l

/-- getCurrentPlayer (game.ts:143), totalised: the source indexes
`players[currentPlayerIndex]` and would dereference `undefined` out of
range; reachable states always have the index in range. -/
def currentPlayer? (s : GameState) : Option Player :=
  s.players[s.currentPlayerIndex]?

/-- getPlayerById (game.ts:147). -/
def getPlayerById (s : GameState) (playerId : String) : Option Player :=
  s.players.find? (fun p => p.id == playerId)

/-- The TERRAIN_TO_RESOURCE table (game.ts:29). -/
def terrainToResource : TerrainType → Option ResourceType
  | .wood => some .wood
  | .brick => some .brick
  | .sheep => some .sheep
  | .wheat => some .wheat
  | .ore => some .ore
  | .desert => none

/-- BUILDING_COSTS.road (types.ts:35). -/
def roadCost : Resources := ⟨1, 1, 0, 0, 0⟩

/-- BUILDING_COSTS.settlement (types.ts:36). -/
def settlementCost : Resources := ⟨1, 1, 1, 1, 0⟩

/-- BUILDING_COSTS.city (types.ts:37): 2 wheat + 3 ore. -/
def cityCost : Resources := ⟨0, 0, 0, 2, 3⟩

/-- BUILDING_COSTS.devCard (types.ts:38). -/
def devCardCost : Resources := ⟨0, 0, 1, 1, 0⟩

/-- hasResources (game.ts:322): every required amount is covered. -/
def hasResources (p : Player) (cost : Resources) : Bool :=
  ResourceType.all.all (fun ρ => decide (cost.get ρ ≤ p.resources.get ρ))

/-- The ids adjacent to `vid` collected by getAdjacentVertices
(board module, game.ts:1247): for every edge one endpoint of which is `vid`,
the other endpoint.  The JS `Set` is modelled as a list; only membership is
ever used. -/
def adjacentVertexIds (b : Board) (vid : String) : List String :=
  b.edges.filterMap (fun e =>
    if e.vertexIds.1 == vid then some e.vertexIds.2
    else if e.vertexIds.2 == vid then some e.vertexIds.1
    else none)

/-- getAdjacentVertices (game.ts:1247): the vertices whose id is adjacent to
`vid`. -/
def getAdjacentVertices (b : Board) (vid : String) : List Vertex :=
  b.vertices.filter (fun v => (adjacentVertexIds b vid).contains v.id)

/-- getVertexEdges (game.ts:1262). -/
def getVertexEdges (b : Board) (vid : String) : List Edge :=
  b.edges.filter (fun e => e.vertexIds.1 == vid || e.vertexIds.2 == vid)

/-- getEdgeVertices (game.ts:1269). -/
def getEdgeVertices (b : Board) (edgeId : String) : Option (Vertex × Vertex) :=
  match b.edges.find? (fun e => e.id == edgeId) with
  | none => none
  | some e =>
    match b.vertices.find? (fun v => v.id == e.vertexIds.1),
          b.vertices.find? (fun v => v.id == e.vertexIds.2) with
    | some v1, some v2 => some (v1, v2)
    | _, _ => none

/-- isEdgeConnectedToPlayer (game.ts:1281). -/
def isEdgeConnectedToPlayer (b : Board) (edgeId playerId : String) : Bool :=
  match getEdgeVertices b edgeId with
  | none => false
  | some (v1, v2) =>
    if v1.playerId == some playerId || v2.playerId == some playerId then true
    else
      [v1, v2].any (fun v =>
        (getVertexEdges b v.id).any (fun e => e.road && e.playerId == some playerId))

/-- getHexVertices (game.ts:1365). -/
def getHexVertices (b : Board) (hexId : String) : List Vertex :=
  b.vertices.filter (fun v => v.hexIds.contains hexId)

/-- getPlayerHarbors (game.ts:1377): harbors referenced by a vertex carrying
one of the player's buildings. -/
def getPlayerHarbors (b : Board) (playerId : String) : List Harbor :=
  let playerVertices := b.vertices.filter
    (fun v => v.playerId == some playerId && v.building.isSome)
  let harborIds := playerVertices.filterMap (fun v => v.harborId)
  b.harbors.filter (fun h => harborIds.contains h.id)

/-- canPlaceInitialSettlement (game.ts:153).  An out-of-range current-player
index would make the source dereference `undefined`; it is modelled as a
rejection and is unreachable in play. -/
def canPlaceInitialSettlement (s : GameState) (playerId vertexId : String) : Bool :=
  if s.phase != .setup_settlement then false
  else match currentPlayer? s with
  | none => false
  | some cur =>
    if cur.id != playerId then false
    else match s.board.vertices.find? (fun v => v.id == vertexId) with
    | none => false
    | some v =>
      if v.building.isSome then false
      else if (getAdjacentVertices s.board vertexId).any (fun w => w.building.isSome) then false
      else true

/-- placeInitialSettlement (game.ts:169). -/
def placeInitialSettlement (s : GameState) (playerId vertexId : String) :
    Bool × GameState :=
  if ¬ canPlaceInitialSettlement s playerId vertexId then (false, s)
  else
    let vs := updateFirst (fun v => v.id == vertexId)
      (fun v => { v with building := some .settlement, playerId := some playerId })
      s.board.vertices
    let ps := updateFirst (fun p => p.id == playerId)
      (fun p => { p with
        settlementsBuilt := p.settlementsBuilt + 1,
        victoryPoints := p.victoryPoints + 1,
        setupSettlementsPlaced := p.setupSettlementsPlaced + 1,
        lastPlacedVertexId := some vertexId })
      s.players
    (true, { s with board := { s.board with vertices := vs },
                    players := ps, phase := .setup_road })

/-- canPlaceInitialRoad (game.ts:190). -/
def canPlaceInitialRoad (s : GameState) (playerId edgeId : String) : Bool :=
  if s.phase != .setup_road then false
  else match currentPlayer? s with
  | none => false
  | some cur =>
    if cur.id != playerId then false
    else match cur.lastPlacedVertexId with
    | none => false
    | some lastV =>
      match s.board.edges.find? (fun e => e.id == edgeId) with
      | none => false
      | some e =>
        if e.road then false
        else if e.vertexIds.1 == lastV || e.vertexIds.2 == lastV then true
        else false

/-- The per-player credit computed by giveStartingResources (game.ts:259):
one unit per producing hex adjacent to the LAST settlement of the player in
the order of `board.vertices` (the source comment asserts this is the
second-placed settlement, which does not hold in general, see the C1
theorem). -/
def startingGain (b : Board) (p : Player) : Resources :=
  let settlements := b.vertices.filter
    (fun v => v.playerId == some p.id && v.building == some .settlement)
  if settlements.length ≥ 2 then
    match settlements.getLast? with
    | none => p.resources
    | some second =>
      second.hexIds.foldl (fun acc hexId =>
        match b.hexes.find? (fun h => h.id == hexId) with
        | none => acc
        | some hex =>
          if hex.terrain != .desert then
            match terrainToResource hex.terrain with
            | some ρ => acc.addAmount ρ 1
            | none => acc
          else acc) p.resources
  else p.resources

/-- giveStartingResources (game.ts:259). -/
def giveStartingResources (s : GameState) : GameState :=
  { s with players := s.players.map (fun p => { p with resources := startingGain s.board p }) }

/-- advanceSetupTurn (game.ts:225). -/
def advanceSetupTurn (s : GameState) : GameState :=
  let numPlayers := s.players.length
  if s.setupRound == 1 then
    if s.setupDirection == .forward then
      if s.currentPlayerIndex < numPlayers - 1 then
        { s with currentPlayerIndex := s.currentPlayerIndex + 1, phase := .setup_settlement }
      else
        { s with setupDirection := .reverse, setupRound := 2, phase := .setup_settlement }
    else
      { s with phase := .setup_settlement }
  else
    if s.currentPlayerIndex > 0 then
      { s with currentPlayerIndex := s.currentPlayerIndex - 1, phase := .setup_settlement }
    else
      let s := giveStartingResources s
      { s with phase := .roll, turnNumber := 1 }

/-- placeInitialRoad (game.ts:206). -/
def placeInitialRoad (s : GameState) (playerId edgeId : String) : Bool × GameState :=
  if ¬ canPlaceInitialRoad s playerId edgeId then (false, s)
  else
    let es := updateFirst (fun e => e.id == edgeId)
      (fun e => { e with road := true, playerId := some playerId })
      s.board.edges
    let ps := updateFirst (fun p => p.id == playerId)
      (fun p => { p with roadsBuilt := p.roadsBuilt + 1, lastPlacedVertexId := none })
      s.players
    (true, advanceSetupTurn
      { s with board := { s.board with edges := es }, players := ps })

/-- The statement `player.resources[resource] += amount` on a player. -/
def addAmountTo (ρ : ResourceType) (n : Int) (p : Player) : Player :=
  { p with resources := p.resources.addAmount ρ n }

/-- The per-vertex body of the distribution loop (game.ts:310): an occupied
vertex credits its owner 1 unit (2 for a city) of the hex resource; the
in-place mutation of the player object found by id is `updateFirst`. -/
def creditVertex (ρ : ResourceType) (ps : List Player) (v : Vertex) : List Player :=
  match v.playerId, v.building with
  | some pid, some bld =>
    updateFirst (fun p => p.id == pid)
      (addAmountTo ρ (if bld == .city then 2 else 1)) ps
  | _, _ => ps

/-- The per-hex body of distributeResources (game.ts:302): a hex produces
only when its number equals the dice total, it does not hold the robber, and
its terrain maps to a resource (the desert does not). -/
def creditHex (b : Board) (diceTotal : Int) (ps : List Player) (hex : HexTile) :
    List Player :=
  if hex.number != some diceTotal || hex.hasRobber then ps
  else match terrainToResource hex.terrain with
  | none => ps
  | some ρ => (getHexVertices b hex.id).foldl (creditVertex ρ) ps

/-- distributeResources (game.ts:299). -/
def distributeResources (s : GameState) (diceTotal : Int) : GameState :=
  { s with players := s.board.hexes.foldl (creditHex s.board diceTotal) s.players }

/-- The vertex-blocking test of calculateLongestRoad (game.ts:1316): a vertex
owned by a different player breaks the chain. -/
def blockedAt (b : Board) (playerId vid : String) : Bool :=
  match b.vertices.find? (fun v => v.id == vid) with
  | none => false
  | some v => v.playerId.isSome && v.playerId != some playerId

/-- The adjacency relation of calculateLongestRoad (game.ts:1311): from edge
`e`, through each non-blocking endpoint, every other owned edge sharing that
endpoint.  The JS `Set` of neighbour ids is a list here; duplicates are
harmless because the depth-first search skips visited edges. -/
def edgeNeighbors (b : Board) (playerId : String) (playerEdges : List Edge)
    (e : Edge) : List Edge :=
  let via := fun (vid : String) =>
    if blockedAt b playerId vid then []
    else playerEdges.filter (fun o =>
      o.id != e.id && (o.vertexIds.1 == vid || o.vertexIds.2 == vid))
  via e.vertexIds.1 ++ via e.vertexIds.2

/-- The dfs of calculateLongestRoad (game.ts:1337), with explicit fuel.  The
fuel only bounds the recursion depth; it is chosen one larger than the number
of owned edges, and since every recursive call extends `visited` by a fresh
edge id, the zero-fuel branch is unreachable. -/
def longestFrom (b : Board) (playerId : String) (playerEdges : List Edge) :
    Nat → Edge → List String → Nat
  | 0, _, _ => 0
  | fuel + 1, e, visited =>
    let visited := e.id :: visited
    let ns := edgeNeighbors b playerId playerEdges e
    1 + ns.foldl (fun m n =>
      if visited.contains n.id then m
      else max m (longestFrom b playerId playerEdges fuel n visited)) 0

/-- calculateLongestRoad (game.ts:1306). -/
def calculateLongestRoad (b : Board) (playerId : String) : Nat :=
  let playerEdges := b.edges.filter (fun e => e.road && e.playerId == some playerId)
  if playerEdges.isEmpty then 0
  else playerEdges.foldl
    (fun m e => max m (longestFrom b playerId playerEdges (playerEdges.length + 1) e []))
    0

/-- The leader fold of updateLongestRoadBonus (game.ts:571): starting from a
threshold of 4, the first player in list order strictly above the running
maximum. -/
def strictLeader (key : Player → Int) (threshold : Int) (ps : List Player) :
    Int × Option String :=
  ps.foldl (fun acc p => if key p > acc.1 then (key p, some p.id) else acc)
    (threshold, none)

/-- updateLongestRoadBonus (game.ts:570). -/
def updateLongestRoadBonus (s : GameState) : GameState :=
  let leaderId := (strictLeader (fun p => p.longestRoad) 4 s.players).2
  let dropBonus := fun (pid : String) (ps : List Player) =>
    updateFirst (fun p => p.id == pid)
      (fun p => { p with victoryPoints := p.victoryPoints - 2 }) ps
  let grantBonus := fun (pid : String) (ps : List Player) =>
    updateFirst (fun p => p.id == pid)
      (fun p => { p with victoryPoints := p.victoryPoints + 2 }) ps
  let s1 :=
    match s.longestRoadPlayerId with
    | some prevId =>
      if some prevId ≠ leaderId then { s with players := dropBonus prevId s.players }
      else s
    | none => s
  let s2 :=
    match leaderId with
    | some lid =>
      if leaderId ≠ s.longestRoadPlayerId then { s1 with players := grantBonus lid s1.players }
      else s1
    | none => s1
  { s2 with longestRoadPlayerId := leaderId }

/-- updateLargestArmyBonus (game.ts:601), identical shape with the knight
count and a threshold of 2. -/
def updateLargestArmyBonus (s : GameState) : GameState :=
  let leaderId := (strictLeader (fun p => p.knightsPlayed) 2 s.players).2
  let dropBonus := fun (pid : String) (ps : List Player) =>
    updateFirst (fun p => p.id == pid)
      (fun p => { p with victoryPoints := p.victoryPoints - 2 }) ps
  let grantBonus := fun (pid : String) (ps : List Player) =>
    updateFirst (fun p => p.id == pid)
      (fun p => { p with victoryPoints := p.victoryPoints + 2 }) ps
  let s1 :=
    match s.largestArmyPlayerId with
    | some prevId =>
      if some prevId ≠ leaderId then { s with players := dropBonus prevId s.players }
      else s
    | none => s
  let s2 :=
    match leaderId with
    | some lid =>
      if leaderId ≠ s.largestArmyPlayerId then { s1 with players := grantBonus lid s1.players }
      else s1
    | none => s1
  { s2 with largestArmyPlayerId := leaderId }

/-- The hidden victory-point card count of checkVictory (game.ts:635). -/
def hiddenVP (p : Player) : Int :=
  ((p.devCards.filter (fun c => c.type == .victory_point)).length : Int)

/-- checkVictory (game.ts:632): the first player (in list order) whose
visible points plus hidden victory-point cards reach the threshold wins; the
hidden cards are revealed onto the visible total. -/
def checkVictory (s : GameState) : GameState :=
  let wins := fun (p : Player) => decide (s.settings.victoryPointsToWin ≤ p.victoryPoints + hiddenVP p)
  match s.players.find? wins with
  | none => s
  | some p =>
    { s with
      players := updateFirst wins
        (fun q => { q with victoryPoints := q.victoryPoints + hiddenVP q }) s.players,
      winnerId := some p.id,
      phase := .ended }

/-- BUILDING_LIMITS (types.ts:42). -/
def roadLimit : Int := 15

/-- BUILDING_LIMITS (types.ts:42). -/
def settlementLimit : Int := 5

/-- BUILDING_LIMITS (types.ts:42). -/
def cityLimit : Int := 4

/-- canBuildRoad (game.ts:349). -/
def canBuildRoad (s : GameState) (playerId edgeId : String) (free : Bool) : Bool :=
  match getPlayerById s playerId with
  | none => false
  | some p =>
    if p.roadsBuilt ≥ roadLimit then false
    else match s.board.edges.find? (fun e => e.id == edgeId) with
    | none => false
    | some e =>
      if e.road then false
      else if ¬ free ∧ ¬ hasResources p roadCost then false
      else isEdgeConnectedToPlayer s.board edgeId playerId

/-- buildRoad (game.ts:364): deduct (unless free), set the edge, bump the
road count, recompute the longest road of the builder, then update the
Longest Road bonus.  Note that the source never calls checkVictory here. -/
def buildRoad (s : GameState) (playerId edgeId : String) (free : Bool) :
    Bool × GameState :=
  if ¬ canBuildRoad s playerId edgeId free then (false, s)
  else
    let paidPs := updateFirst (fun p => p.id == playerId)
      (fun p => { p with resources := p.resources.sub roadCost }) s.players
    let s := if free then s else { s with players := paidPs }
    let es := updateFirst (fun e => e.id == edgeId)
      (fun e => { e with road := true, playerId := some playerId })
      s.board.edges
    let s := { s with board := { s.board with edges := es } }
    let countedPs := updateFirst (fun p => p.id == playerId)
      (fun p => { p with roadsBuilt := p.roadsBuilt + 1 }) s.players
    let s := { s with players := countedPs }
    let recomputedPs := updateFirst (fun p => p.id == playerId)
      (fun p => { p with longestRoad := (calculateLongestRoad s.board playerId : Int) }) s.players
    let s := { s with players := recomputedPs }
    (true, updateLongestRoadBonus s)

/-- canBuildSettlement (game.ts:385). -/
def canBuildSettlement (s : GameState) (playerId vertexId : String) : Bool :=
  match getPlayerById s playerId with
  | none => false
  | some p =>
    if p.settlementsBuilt ≥ settlementLimit then false
    else match s.board.vertices.find? (fun v => v.id == vertexId) with
    | none => false
    | some v =>
      if v.building.isSome then false
      else if ¬ hasResources p settlementCost then false
      else if (getAdjacentVertices s.board vertexId).any (fun w => w.building.isSome) then false
      else if (s.board.edges.filter (fun e =>
          (e.vertexIds.1 == vertexId || e.vertexIds.2 == vertexId)
            && e.road && e.playerId == some playerId)).isEmpty then false
      else true

/-- buildSettlement (game.ts:413). -/
def buildSettlement (s : GameState) (playerId vertexId : String) :
    Bool × GameState :=
  if ¬ canBuildSettlement s playerId vertexId then (false, s)
  else
    let vs := updateFirst (fun v => v.id == vertexId)
      (fun v => { v with building := some .settlement, playerId := some playerId })
      s.board.vertices
    let ps := updateFirst (fun p => p.id == playerId)
      (fun p => { p with
        resources := p.resources.sub settlementCost,
        settlementsBuilt := p.settlementsBuilt + 1,
        victoryPoints := p.victoryPoints + 1 })
      s.players
    (true, checkVictory
      { s with board := { s.board with vertices := vs }, players := ps })

/-- canBuildCity (game.ts:430). -/
def canBuildCity (s : GameState) (playerId vertexId : String) : Bool :=
  match getPlayerById s playerId with
  | none => false
  | some p =>
    if p.citiesBuilt ≥ cityLimit then false
    else match s.board.vertices.find? (fun v => v.id == vertexId) with
    | none => false
    | some v =>
      if v.building != some .settlement || v.playerId != some playerId then false
      else hasResources p cityCost

/-- buildCity (game.ts:446): upgrade the settlement in place (the owner field
is untouched), net one extra victory point. -/
def buildCity (s : GameState) (playerId vertexId : String) : Bool × GameState :=
  if ¬ canBuildCity s playerId vertexId then (false, s)
  else
    let vs := updateFirst (fun v => v.id == vertexId)
      (fun v => { v with building := some .city })
      s.board.vertices
    let ps := updateFirst (fun p => p.id == playerId)
      (fun p => { p with
        resources := p.resources.sub cityCost,
        settlementsBuilt := p.settlementsBuilt - 1,
        citiesBuilt := p.citiesBuilt + 1,
        victoryPoints := p.victoryPoints + 1 })
      s.players
    (true, checkVictory
      { s with board := { s.board with vertices := vs }, players := ps })

/-- moveRobber (game.ts:465): clear the first hex currently holding the
robber, then set the robber on the first hex with the requested id. -/
def moveRobber (s : GameState) (hexId : String) : Bool × GameState :=
  match s.board.hexes.find? (fun h => h.id == hexId) with
  | none => (false, s)
  | some _ =>
    let hexes := updateFirst (fun h => h.hasRobber)
      (fun h => { h with hasRobber := false }) s.board.hexes
    let hexes := updateFirst (fun h => h.id == hexId)
      (fun h => { h with hasRobber := true }) hexes
    (true, { s with board := { s.board with hexes := hexes } })

/-- getPlayersToStealFrom (game.ts:483). -/
def getPlayersToStealFrom (s : GameState) (hexId : String) : List Player :=
  match currentPlayer? s with
  | none => []
  | some cur =>
    let pids := (getHexVertices s.board hexId).filterMap (fun v =>
      match v.playerId with
      | some pid =>
        if pid != cur.id then
          match getPlayerById s pid with
          | some p => if p.resources.total > 0 then some pid else none
          | none => none
        else none
      | none => none)
    s.players.filter (fun p => pids.contains p.id)

/-- The multiset of individual cards of stealResource (game.ts:511): each
resource repeated as many times as held. -/
def availableResList (p : Player) : List ResourceType :=
  (ResourceType.all.map (fun ρ => List.replicate (p.resources.get ρ).toNat ρ)).flatten

/-- stealResource (game.ts:500); the uniformly random index into the card
multiset is the explicit parameter `k`. -/
def stealResource (s : GameState) (targetPlayerId : String) (k : Nat) :
    Option ResourceType × GameState :=
  match currentPlayer? s with
  | none => (none, s)
  | some cur =>
    match getPlayerById s targetPlayerId with
    | none => (none, s)
    | some target =>
      if target.resources.total == 0 then (none, s)
      else match (availableResList target)[k]? with
      | none => (none, s)
      | some ρ =>
        let ps := updateFirst (fun p => p.id == targetPlayerId)
          (fun p => { p with resources := p.resources.addAmount ρ (-1) }) s.players
        let ps := updateFirst (fun p => p.id == cur.id)
          (fun p => { p with resources := p.resources.addAmount ρ 1 }) ps
        (some ρ, { s with players := ps })

/-- getPlayersToDiscard (game.ts:534). -/
def getPlayersToDiscard (s : GameState) : List Player :=
  s.players.filter (fun p => p.resources.total > s.settings.handLimit)

/-- discardHalfResources (game.ts:538). -/
def discardHalfResources (s : GameState) (playerId : String)
    (resources : Resources) : Bool × GameState :=
  match getPlayerById s playerId with
  | none => (false, s)
  | some p =>
    let totalToDiscard := (p.resources.total).fdiv 2
    let discarding := resources.total
    if discarding != totalToDiscard then (false, s)
    else if ¬ (ResourceType.all.all (fun ρ => decide (resources.get ρ ≤ p.resources.get ρ))) then
      (false, s)
    else
      let ps := updateFirst (fun q => q.id == playerId)
        (fun q => { q with resources := q.resources.sub resources }) s.players
      let remaining := s.discardingPlayerIds.filter (fun i => i != playerId)
      (true, { s with players := ps, discardingPlayerIds := remaining })

/-- The 2:1 harbor tag matching a resource. -/
def harborOf : ResourceType → HarborType
  | .wood => .wood
  | .brick => .brick
  | .sheep => .sheep
  | .wheat => .wheat
  | .ore => .ore

/-- One iteration of the harbor loop of getPlayerTradeRatios (game.ts:662):
a generic harbor lowers every ratio above 3 to 3, a resource harbor lowers
that ratio above 2 to 2. -/
def applyHarbor (r : Resources) (h : Harbor) : Resources :=
  match h.type with
  | .generic =>
    ⟨if r.wood > 3 then 3 else r.wood,
     if r.brick > 3 then 3 else r.brick,
     if r.sheep > 3 then 3 else r.sheep,
     if r.wheat > 3 then 3 else r.wheat,
     if r.ore > 3 then 3 else r.ore⟩
  | .wood => if r.wood > 2 then { r with wood := 2 } else r
  | .brick => if r.brick > 2 then { r with brick := 2 } else r
  | .sheep => if r.sheep > 2 then { r with sheep := 2 } else r
  | .wheat => if r.wheat > 2 then { r with wheat := 2 } else r
  | .ore => if r.ore > 2 then { r with ore := 2 } else r

/-- getPlayerTradeRatios (game.ts:651): start from 4:1 everywhere and fold
the accessible harbors. -/
def getPlayerTradeRatios (s : GameState) (playerId : String) : Resources :=
  (getPlayerHarbors s.board playerId).foldl applyHarbor ⟨4, 4, 4, 4, 4⟩

/-- The totalReceiving loop of bankTrade (game.ts:697): positive requested
amounts summed (exactly; the source value is an integral float). -/
def bankTotalReceiving (receiving : Resources) : ℚ :=
  ResourceType.all.foldl
    (fun t ρ => if receiving.get ρ > 0 then t + (receiving.get ρ : ℚ) else t) 0

/-- The totalGiving loop of bankTrade (game.ts:704): positive given amounts
divided by the per-resource ratio and summed.  The source computes this in
floating point; it is modelled exactly over `ℚ`. -/
def bankTotalGiving (ratios giving : Resources) : ℚ :=
  ResourceType.all.foldl
    (fun t ρ => if giving.get ρ > 0 then t + (giving.get ρ : ℚ) / (ratios.get ρ : ℚ) else t) 0

/-- bankTrade (game.ts:682).  The float comparison
`Math.abs(totalGiving - totalReceiving) > 0.001` is the exact-rational
comparison against `1/1000`. -/
def bankTrade (s : GameState) (playerId : String) (giving receiving : Resources) :
    Bool × GameState :=
  match getPlayerById s playerId with
  | none => (false, s)
  | some p =>
    let ratios := getPlayerTradeRatios s playerId
    if |bankTotalGiving ratios giving - bankTotalReceiving receiving| > 1 / 1000 then
      (false, s)
    else if ¬ hasResources p giving then (false, s)
    else
      let ps := updateFirst (fun q => q.id == playerId)
        (fun q => { q with resources := (q.resources.sub giving).add receiving }) s.players
      (true, { s with players := ps })

/-- createTradeOffer (game.ts:724), returning a success flag instead of the
offer object (whose fresh `uuid` id is omitted). -/
def createTradeOffer (s : GameState) (fromPlayerId : String)
    (toPlayerId : Option String) (offering requesting : Resources) :
    Bool × GameState :=
  match getPlayerById s fromPlayerId with
  | none => (false, s)
  | some fromP =>
    if ¬ hasResources fromP offering then (false, s)
    else
      let offer : TradeOffer := ⟨fromPlayerId, toPlayerId, offering, requesting, .pending⟩
      (true, { s with tradeOffer := some offer })

/-- acceptTrade (game.ts:750).  When the offer names a target player that
exists, both sufficiency checks run and the four resource mutations apply in
source order (which also handles a self-trade); when the target is absent or
the offer is open (`toPlayerId` null), no resources move.  In every accepting
branch the source marks the discarded offer object accepted and then clears
`state.tradeOffer`. -/
def acceptTrade (s : GameState) : Bool × GameState :=
  match s.tradeOffer with
  | none => (false, s)
  | some offer =>
    if offer.status != .pending then (false, s)
    else match getPlayerById s offer.fromPlayerId with
    | none => (false, s)
    | some fromP =>
      match offer.toPlayerId with
      | none => (true, { s with tradeOffer := none })
      | some tid =>
        match getPlayerById s tid with
        | none => (true, { s with tradeOffer := none })
        | some toP =>
          if ¬ hasResources toP offer.requesting then (false, s)
          else if ¬ hasResources fromP offer.offering then (false, s)
          else
            let ps := updateFirst (fun q => q.id == offer.fromPlayerId)
              (fun q => { q with resources := q.resources.sub offer.offering }) s.players
            let ps := updateFirst (fun q => q.id == offer.fromPlayerId)
              (fun q => { q with resources := q.resources.add offer.requesting }) ps
            let ps := updateFirst (fun q => q.id == toP.id)
              (fun q => { q with resources := q.resources.sub offer.requesting }) ps
            let ps := updateFirst (fun q => q.id == toP.id)
              (fun q => { q with resources := q.resources.add offer.offering }) ps
            (true, { s with players := ps, tradeOffer := none })

/-- canBuyDevCard (game.ts:784). -/
def canBuyDevCard (s : GameState) (playerId : String) : Bool :=
  match getPlayerById s playerId with
  | none => false
  | some p =>
    if s.devCardDeck.isEmpty then false
    else hasResources p devCardCost

/-- buyDevCard (game.ts:791): deduct the cost, pop the last deck card, mark
it bought this turn, hand it over, then run the victory check.  The deck is
matched before the deduction; with `canBuyDevCard` established the deck is
nonempty, so the order is immaterial and the `none` branch is dead. -/
def buyDevCard (s : GameState) (playerId : String) : Bool × GameState :=
  if ¬ canBuyDevCard s playerId then (false, s)
  else match s.devCardDeck.getLast? with
  | none => (false, s)
  | some card =>
    let ps := updateFirst (fun q => q.id == playerId)
      (fun q => { q with resources := q.resources.sub devCardCost }) s.players
    let card := { card with boughtThisTurn := true }
    let ps := updateFirst (fun q => q.id == playerId)
      (fun q => { q with devCards := q.devCards ++ [card] }) ps
    (true, checkVictory { s with players := ps, devCardDeck := s.devCardDeck.dropLast })

/-- canPlayDevCard (game.ts:809). -/
def canPlayDevCard (s : GameState) (playerId : String) (cardType : DevCardType) : Bool :=
  match getPlayerById s playerId with
  | none => false
  | some p =>
    if p.devCardPlayedThisTurn && cardType != .victory_point then false
    else if (p.devCards.find? (fun c => c.type == cardType && !c.boughtThisTurn)).isNone then
      false
    else if cardType == .victory_point then false
    else true

/-- playKnight (game.ts:826): consume the card, count the knight, update the
Largest Army bonus, record the resume phase and enter the robber-move
phase.  Note that the source never calls checkVictory here. -/
def playKnight (s : GameState) (playerId : String) : Bool × GameState :=
  if ¬ canPlayDevCard s playerId .knight then (false, s)
  else
    let ps := updateFirst (fun q => q.id == playerId)
      (fun q => { q with
        devCards := removeFirst (fun c => c.type == .knight && !c.boughtThisTurn) q.devCards,
        knightsPlayed := q.knightsPlayed + 1,
        devCardPlayedThisTurn := true }) s.players
    let s := updateLargestArmyBonus { s with players := ps }
    (true, { s with
      phaseBeforeRobber := some (if s.phase == .roll then .roll else .main),
      phase := .robber_move })

/-- playRoadBuilding (game.ts:854). -/
def playRoadBuilding (s : GameState) (playerId : String) : Bool × GameState :=
  if ¬ canPlayDevCard s playerId .road_building then (false, s)
  else
    let ps := updateFirst (fun q => q.id == playerId)
      (fun q => { q with
        devCards := removeFirst (fun c => c.type == .road_building && !c.boughtThisTurn) q.devCards,
        devCardPlayedThisTurn := true }) s.players
    (true, { s with players := ps, roadBuildingRoadsLeft := 2, phase := .road_building })

/-- playYearOfPlenty (game.ts:872). -/
def playYearOfPlenty (s : GameState) (playerId : String)
    (resource1 resource2 : ResourceType) : Bool × GameState :=
  if ¬ canPlayDevCard s playerId .year_of_plenty then (false, s)
  else
    let ps := updateFirst (fun q => q.id == playerId)
      (fun q => { q with
        devCards := removeFirst (fun c => c.type == .year_of_plenty && !c.boughtThisTurn) q.devCards,
        devCardPlayedThisTurn := true,
        resources := (q.resources.addAmount resource1 1).addAmount resource2 1 }) s.players
    (true, { s with players := ps })

/-- playMonopoly (game.ts:892): every other player (by id) loses the whole
chosen resource; the summed amount is credited to the caller. -/
def playMonopoly (s : GameState) (playerId : String) (resource : ResourceType) :
    Bool × GameState :=
  if ¬ canPlayDevCard s playerId .monopoly then (false, s)
  else
    let ps := updateFirst (fun q => q.id == playerId)
      (fun q => { q with
        devCards := removeFirst (fun c => c.type == .monopoly && !c.boughtThisTurn) q.devCards,
        devCardPlayedThisTurn := true }) s.players
    let stolen := (ps.filter (fun q => q.id != playerId)).foldl
      (fun t q => t + q.resources.get resource) 0
    let ps := ps.map (fun q =>
      if q.id != playerId then { q with resources := q.resources.setAmount resource 0 } else q)
    let ps := updateFirst (fun q => q.id == playerId)
      (fun q => { q with resources := q.resources.addAmount resource stolen }) ps
    (true, { s with players := ps })

/-- buildRoadFromRoadBuilding (game.ts:919). -/
def buildRoadFromRoadBuilding (s : GameState) (playerId edgeId : String) :
    Bool × GameState :=
  if s.phase != .road_building then (false, s)
  else if s.roadBuildingRoadsLeft ≤ 0 then (false, s)
  else match currentPlayer? s with
  | none => (false, s)
  | some cur =>
    if cur.id != playerId then (false, s)
    else match buildRoad s playerId edgeId true with
    | (false, _) => (false, s)
    | (true, s1) =>
      let s2 := { s1 with roadBuildingRoadsLeft := s1.roadBuildingRoadsLeft - 1 }
      (true, if s2.roadBuildingRoadsLeft == 0 then { s2 with phase := .main } else s2)

/-- endTurn (game.ts:939): reset the per-turn card flags of the player at the
current index, advance the index circularly, reset the phase and clear any
pending trade. -/
def endTurn (s : GameState) : GameState :=
  match s.players[s.currentPlayerIndex]? with
  | none => s
  | some cur =>
    let cur := { cur with
      devCardPlayedThisTurn := false,
      devCards := cur.devCards.map (fun c => { c with boughtThisTurn := false }) }
    let players := s.players.set s.currentPlayerIndex cur
    let nextIndex := (s.currentPlayerIndex + 1) % players.length
    { s with players := players, currentPlayerIndex := nextIndex,
             phase := .roll, tradeOffer := none, turnNumber := s.turnNumber + 1 }

/-!
The socket-handler layer (`src/server/src/sockets/handlers.ts`).  Each
handler is modelled as a total state transformer: every early `return`
(wrong room, wrong phase, wrong actor, rejected operation) leaves the state
unchanged, exactly as in the source, where the only effect of a rejected
event is that no mutation and no broadcast happen.  The acting player
identity (`socket.id`) is the `actorId` parameter.
-/

/-- The placeInitialSettlement handler (handlers.ts:115). -/
def handlePlaceInitialSettlement (s : GameState) (actorId vertexId : String) : GameState :=
  if s.phase != .setup_settlement then s
  else match currentPlayer? s with
  | none => s
  | some cur =>
    if cur.id != actorId then s
    else (placeInitialSettlement s actorId vertexId).2

/-- The placeInitialRoad handler (handlers.ts:130). -/
def handlePlaceInitialRoad (s : GameState) (actorId edgeId : String) : GameState :=
  if s.phase != .setup_road then s
  else match currentPlayer? s with
  | none => s
  | some cur =>
    if cur.id != actorId then s
    else (placeInitialRoad s actorId edgeId).2

/-- The rollDice handler (handlers.ts:148); the two uniform dice draws are
the parameters `d1`, `d2`. -/
def handleRollDice (s : GameState) (actorId : String) (d1 d2 : Int) : GameState :=
  match currentPlayer? s with
  | none => s
  | some cur =>
    if cur.id != actorId || s.phase != .roll then s
    else
      let s := { s with lastDiceRoll := some (d1, d2) }
      let total := d1 + d2
      if total == 7 then
        let toDiscard := getPlayersToDiscard s
        let s :=
          if toDiscard.length > 0 then
            { s with phase := .robber_discard,
                     discardingPlayerIds := toDiscard.map (fun p => p.id) }
          else { s with phase := .robber_move }
        { s with phaseBeforeRobber := some .main }
      else
        { distributeResources s total with phase := .main }

/-- The buildRoad handler (handlers.ts:182): during the `road_building`
sub-phase it routes to buildRoadFromRoadBuilding, otherwise it requires the
`main` phase. -/
def handleBuildRoad (s : GameState) (actorId edgeId : String) : GameState :=
  match currentPlayer? s with
  | none => s
  | some cur =>
    if cur.id != actorId then s
    else if s.phase == .road_building then (buildRoadFromRoadBuilding s actorId edgeId).2
    else if s.phase != .main then s
    else (buildRoad s actorId edgeId false).2

/-- The buildSettlement handler (handlers.ts:207). -/
def handleBuildSettlement (s : GameState) (actorId vertexId : String) : GameState :=
  match currentPlayer? s with
  | none => s
  | some cur =>
    if cur.id != actorId || s.phase != .main then s
    else (buildSettlement s actorId vertexId).2

/-- The buildCity handler (handlers.ts:222). -/
def handleBuildCity (s : GameState) (actorId vertexId : String) : GameState :=
  match currentPlayer? s with
  | none => s
  | some cur =>
    if cur.id != actorId || s.phase != .main then s
    else (buildCity s actorId vertexId).2

/-- The moveRobber handler (handlers.ts:237): refuses the hex currently
holding the robber, then enters the steal phase when a victim exists,
otherwise resumes the phase recorded before the robber sequence. -/
def handleMoveRobber (s : GameState) (actorId hexId : String) : GameState :=
  match currentPlayer? s with
  | none => s
  | some cur =>
    if cur.id != actorId || s.phase != .robber_move then s
    else if ((s.board.hexes.find? (fun h => h.hasRobber)).map (fun h => h.id)) == some hexId then s
    else match moveRobber s hexId with
    | (false, _) => s
    | (true, s1) =>
      if (getPlayersToStealFrom s1 hexId).length > 0 then { s1 with phase := .robber_steal }
      else { s1 with phase := s1.phaseBeforeRobber.getD .main, phaseBeforeRobber := none }

/-- The stealResource handler (handlers.ts:266): the phase resumes whether or
not the steal succeeded. -/
def handleStealResource (s : GameState) (actorId targetPlayerId : String) (k : Nat) : GameState :=
  match currentPlayer? s with
  | none => s
  | some cur =>
    if cur.id != actorId || s.phase != .robber_steal then s
    else
      let s1 := (stealResource s targetPlayerId k).2
      { s1 with phase := s1.phaseBeforeRobber.getD .main, phaseBeforeRobber := none }

/-- The discardResources handler (handlers.ts:283). -/
def handleDiscardResources (s : GameState) (actorId : String) (resources : Resources) : GameState :=
  if s.phase != .robber_discard then s
  else if ¬ s.discardingPlayerIds.contains actorId then s
  else match discardHalfResources s actorId resources with
  | (false, _) => s
  | (true, s1) =>
    if s1.discardingPlayerIds.isEmpty then { s1 with phase := .robber_move } else s1

/-- The proposeTrade handler (handlers.ts:304). -/
def handleProposeTrade (s : GameState) (actorId : String) (toPlayerId : Option String)
    (offering requesting : Resources) : GameState :=
  match currentPlayer? s with
  | none => s
  | some cur =>
    if cur.id != actorId || s.phase != .main then s
    else match createTradeOffer s actorId toPlayerId offering requesting with
    | (false, _) => s
    | (true, s1) => { s1 with phase := .trade }

/-- The respondToTrade handler (handlers.ts:328): only the named target may
respond; afterwards the offer is cleared and the phase returns to `main`
whether or not the acceptance validated. -/
def handleRespondToTrade (s : GameState) (actorId : String) (accept : Bool) : GameState :=
  if s.phase != .trade then s
  else match s.tradeOffer with
  | none => s
  | some offer =>
    if offer.toPlayerId != some actorId then s
    else
      let s1 := if accept then (acceptTrade s).2 else s
      { s1 with tradeOffer := none, phase := .main }

/-- The cancelTrade handler (handlers.ts:350). -/
def handleCancelTrade (s : GameState) (actorId : String) : GameState :=
  if s.phase != .trade then s
  else match s.tradeOffer with
  | none => s
  | some offer =>
    if offer.fromPlayerId != actorId then s
    else { s with tradeOffer := none, phase := .main }

/-- The bankTrade handler (handlers.ts:365). -/
def handleBankTrade (s : GameState) (actorId : String) (giving receiving : Resources) : GameState :=
  match currentPlayer? s with
  | none => s
  | some cur =>
    if cur.id != actorId || s.phase != .main then s
    else (bankTrade s actorId giving receiving).2

/-- The buyDevCard handler (handlers.ts:381). -/
def handleBuyDevCard (s : GameState) (actorId : String) : GameState :=
  match currentPlayer? s with
  | none => s
  | some cur =>
    if cur.id != actorId || s.phase != .main then s
    else (buyDevCard s actorId).2

/-- The playKnight handler (handlers.ts:395): allowed from `roll` or `main`. -/
def handlePlayKnight (s : GameState) (actorId : String) : GameState :=
  match currentPlayer? s with
  | none => s
  | some cur =>
    if cur.id != actorId then s
    else if s.phase != .main && s.phase != .roll then s
    else (playKnight s actorId).2

/-- The playRoadBuilding handler (handlers.ts:410). -/
def handlePlayRoadBuilding (s : GameState) (actorId : String) : GameState :=
  match currentPlayer? s with
  | none => s
  | some cur =>
    if cur.id != actorId || s.phase != .main then s
    else (playRoadBuilding s actorId).2

/-- The playYearOfPlenty handler (handlers.ts:424). -/
def handlePlayYearOfPlenty (s : GameState) (actorId : String)
    (resource1 resource2 : ResourceType) : GameState :=
  match currentPlayer? s with
  | none => s
  | some cur =>
    if cur.id != actorId || s.phase != .main then s
    else (playYearOfPlenty s actorId resource1 resource2).2

/-- The playMonopoly handler (handlers.ts:438). -/
def handlePlayMonopoly (s : GameState) (actorId : String) (resource : ResourceType) : GameState :=
  match currentPlayer? s with
  | none => s
  | some cur =>
    if cur.id != actorId || s.phase != .main then s
    else (playMonopoly s actorId resource).2

/-- The endTurn handler (handlers.ts:454). -/
def handleEndTurn (s : GameState) (actorId : String) : GameState :=
  match currentPlayer? s with
  | none => s
  | some cur =>
    if cur.id != actorId || s.phase != .main then s
    else endTurn s

/-!
The board-generation fragment relevant to the robber invariant
(generateBoard, game.ts:1106).  The geometric derivation of vertices, edges
and harbors works on floating-point pixel coordinates and fresh `uuid`
identifiers; only the hex-tile construction (game.ts:1115) is modelled: the
shuffled terrain list is mapped over the fixed coordinates, the desert gets
no number and starts with the robber, every other tile draws the next
shuffled number.
-/

/-- The TERRAIN_DISTRIBUTION multiset (game.ts:1003): 4 wood, 4 sheep,
4 wheat, 3 brick, 3 ore, 1 desert. -/
def TERRAIN_DISTRIBUTION : List TerrainType :=
  [.wood, .wood, .wood, .wood,
   .sheep, .sheep, .sheep, .sheep,
   .wheat, .wheat, .wheat, .wheat,
   .brick, .brick, .brick,
   .ore, .ore, .ore,
   .desert]

/-- The hex construction loop of generateBoard (game.ts:1115), over a
coordinate/terrain list and a number queue: the robber starts exactly on the
desert tiles, which receive no number. -/
def mkHexes : List ((Int × Int) × TerrainType) → List Int → List HexTile
  | [], _ => []
  | (qr, t) :: rest, nums =>
    if t == .desert then
      ⟨"hex_" ++ toString qr.1 ++ "_" ++ toString qr.2, qr.1, qr.2, t, none, true⟩
        :: mkHexes rest nums
    else
      ⟨"hex_" ++ toString qr.1 ++ "_" ++ toString qr.2, qr.1, qr.2, t, nums.head?, false⟩
        :: mkHexes rest nums.tail

/-- The HEX_COORDS layout (game.ts:992). -/
def HEX_COORDS : List (Int × Int) :=
  [(0, 0),
   (1, -1), (1, 0), (0, 1), (-1, 1), (-1, 0), (0, -1),
   (2, -2), (2, -1), (2, 0), (1, 1), (0, 2), (-1, 2),
   (-2, 2), (-2, 1), (-2, 0), (-1, -1), (0, -2), (1, -2)]

/-- Number of hexes currently holding the robber. -/
def robberCount (b : Board) : Nat :=
  b.hexes.countP (fun h => h.hasRobber)

/-- One game step: some client event is processed by its socket handler.
The dice values, the steal index and all submitted payloads are arbitrary,
so this relation over-approximates what clients can trigger; an invariant
proved for it holds a fortiori for every state reachable in play. -/
inductive Step : GameState → GameState → Prop
  | placeInitialSettlementStep (s : GameState) (a v : String) :
      Step s (handlePlaceInitialSettlement s a v)
  | placeInitialRoadStep (s : GameState) (a e : String) :
      Step s (handlePlaceInitialRoad s a e)
  | rollDiceStep (s : GameState) (a : String) (d1 d2 : Int) :
      Step s (handleRollDice s a d1 d2)
  | buildRoadStep (s : GameState) (a e : String) :
      Step s (handleBuildRoad s a e)
  | buildSettlementStep (s : GameState) (a v : String) :
      Step s (handleBuildSettlement s a v)
  | buildCityStep (s : GameState) (a v : String) :
      Step s (handleBuildCity s a v)
  | moveRobberStep (s : GameState) (a h : String) :
      Step s (handleMoveRobber s a h)
  | stealResourceStep (s : GameState) (a t : String) (k : Nat) :
      Step s (handleStealResource s a t k)
  | discardResourcesStep (s : GameState) (a : String) (r : Resources) :
      Step s (handleDiscardResources s a r)
  | proposeTradeStep (s : GameState) (a : String) (dst : Option String) (o r : Resources) :
      Step s (handleProposeTrade s a dst o r)
  | respondToTradeStep (s : GameState) (a : String) (acc : Bool) :
      Step s (handleRespondToTrade s a acc)
  | cancelTradeStep (s : GameState) (a : String) :
      Step s (handleCancelTrade s a)
  | bankTradeStep (s : GameState) (a : String) (g r : Resources) :
      Step s (handleBankTrade s a g r)
  | buyDevCardStep (s : GameState) (a : String) :
      Step s (handleBuyDevCard s a)
  | playKnightStep (s : GameState) (a : String) :
      Step s (handlePlayKnight s a)
  | playRoadBuildingStep (s : GameState) (a : String) :
      Step s (handlePlayRoadBuilding s a)
  | playYearOfPlentyStep (s : GameState) (a : String) (r1 r2 : ResourceType) :
      Step s (handlePlayYearOfPlenty s a r1 r2)
  | playMonopolyStep (s : GameState) (a : String) (r : ResourceType) :
      Step s (handlePlayMonopoly s a r)
  | endTurnStep (s : GameState) (a : String) :
      Step s (handleEndTurn s a)

/-- A state reachable from `s` by any sequence of client events. -/
def Reachable (s t : GameState) : Prop :=
  Relation.ReflTransGen Step s t

/-!
Concrete fixtures used to evaluate the operations on explicit inputs.
-/

/-- A fresh player as produced by createPlayer (game.ts:72). -/
def freshPlayer (pid : String) : Player :=
  { id := pid, name := pid, color := .blue, resources := Resources.zero,
    victoryPoints := 0, roadsBuilt := 0, settlementsBuilt := 0, citiesBuilt := 0,
    longestRoad := 0, connected := true, devCards := [], knightsPlayed := 0,
    devCardPlayedThisTurn := false, setupSettlementsPlaced := 0,
    lastPlacedVertexId := none }

/-- An empty vertex fixture. -/
def freshVertex (vid : String) (hs : List String) : Vertex :=
  { id := vid, hexIds := hs, building := none, playerId := none,
    harborId := none, isCoastal := true }

/-- An empty edge fixture. -/
def freshEdge (eid a b : String) : Edge :=
  { id := eid, vertexIds := (a, b), road := false, playerId := none }

/-- A hex fixture without the robber. -/
def freshHex (hid : String) (t : TerrainType) (n : Option Int) : HexTile :=
  { id := hid, q := 0, r := 0, terrain := t, number := n, hasRobber := false }

/-- The default settings produced for a 3 or 4 player game
(rooms module, game.ts:1547). -/
def defaultSettings : GameSettings :=
  { maxPlayers := 4, handLimit := 7, victoryPointsToWin := 10 }

/-- A game state over a given board and roster, with every other field as at
game creation (createGameState, game.ts:92). -/
def baseState (b : Board) (ps : List Player) : GameState :=
  { roomCode := "R", phase := .setup_settlement, players := ps,
    currentPlayerIndex := 0, board := b, lastDiceRoll := none,
    tradeOffer := none, winnerId := none, turnNumber := 0,
    discardingPlayerIds := [], longestRoadPlayerId := none,
    largestArmyPlayerId := none, settings := defaultSettings, setupRound := 1,
    setupDirection := .forward, devCardDeck := [], roadBuildingRoadsLeft := 0,
    phaseBeforeRobber := none }

/-- Fixture board for the setup-draft scenario: the wheat hex touches only
vertex vA, the ore hex only vertex vC; the two road slots are vA-vB and
vC-vD, so vA and vC are not adjacent.  In the vertex array vA comes before
vC. -/
def c1Board : Board :=
  { hexes := [freshHex "hW" .wheat (some 5), freshHex "hO" .ore (some 9)],
    vertices := [freshVertex "vA" ["hW"], freshVertex "vB" [],
                 freshVertex "vC" ["hO"], freshVertex "vD" []],
    edges := [freshEdge "eAB" "vA" "vB", freshEdge "eCD" "vC" "vD"],
    harbors := [] }

/-- A one-player game about to start the setup draft on `c1Board`. -/
def c1State : GameState := baseState c1Board [freshPlayer "P0"]

/-- The four setup-draft moves of the single player: FIRST settlement on vC
(the ore vertex, late in the vertex array), then its road; SECOND settlement
on vA (the wheat vertex, early in the vertex array), then its road, which
completes round 2 and triggers giveStartingResources. -/
def c1AfterFirstSettlement : GameState := (placeInitialSettlement c1State "P0" "vC").2

/-- Fixture: after the first setup road. -/
def c1AfterFirstRoad : GameState := (placeInitialRoad c1AfterFirstSettlement "P0" "eCD").2

/-- Fixture: after the second setup settlement. -/
def c1AfterSecondSettlement : GameState := (placeInitialSettlement c1AfterFirstRoad "P0" "vA").2

/-- Fixture: after the last setup road, i.e. after giveStartingResources. -/
def c1Final : GameState := (placeInitialRoad c1AfterSecondSettlement "P0" "eAB").2

/-- C1: "When the last setup road of round 2 is placed, every player is
credited exactly one resource unit per non-desert hex adjacent to the
settlement that player placed second (in placement order), and receives
nothing for their first-placed settlement; afterwards the phase is `roll`
and currentPlayerIndex is 0."  This FAILS on the code: giveStartingResources
(game.ts:259) takes the player settlement that comes last in the fixed
`board.vertices` array, not the one placed second in time (its own comment
asserts the two coincide, which is false).  In this run the second-placed
settlement sits on vA, whose only hex is wheat, yet the player receives
0 wheat and instead 1 ore from the first-placed settlement on vC.  The
phase/index part of the claim does hold. -/
theorem c1_starting_resources_from_wrong_settlement :
    (placeInitialSettlement c1State "P0" "vC").1 = true ∧
    (placeInitialRoad c1AfterFirstSettlement "P0" "eCD").1 = true ∧
    (placeInitialSettlement c1AfterFirstRoad "P0" "vA").1 = true ∧
    (placeInitialRoad c1AfterSecondSettlement "P0" "eAB").1 = true ∧
    ((getPlayerById c1AfterSecondSettlement "P0").map
      (fun p => p.lastPlacedVertexId) = some (some "vA")) ∧
    c1Final.phase = .roll ∧
    c1Final.currentPlayerIndex = 0 ∧
    (getPlayerById c1Final "P0").map (fun p => p.resources.wheat) = some 0 ∧
    (getPlayerById c1Final "P0").map (fun p => p.resources.ore) = some 1 ∧
    (c1Board.vertices.filter (fun v => v.hexIds.contains "hW")).map (fun v => v.id) = ["vA"] ∧
    (c1Board.vertices.filter (fun v => v.hexIds.contains "hO")).map (fun v => v.id) = ["vC"] := by
  decide

/-- Fixture for the Longest Road tie: P1 currently holds the bonus (its 2
points are included in its total), both players have computed longest road
5, and the challenger P0 comes first in the player list. -/
def c2State : GameState :=
  baseState c1Board
    [{ freshPlayer "P0" with longestRoad := 5, victoryPoints := 0 },
     { freshPlayer "P1" with longestRoad := 5, victoryPoints := 2 }]

/-- Fixture: the tie state with P1 recorded as the bonus holder. -/
def c2Held : GameState := { c2State with longestRoadPlayerId := some "P1" }

/-- C2: "the Longest Road bonus moves to a challenger only when strictly
greater; on a tie the holder keeps the bonus and longestRoadPlayerId is
unchanged, regardless of the players positions in the player list."  This
FAILS on the code: updateLongestRoadBonus (game.ts:570) scans the player
list for the first player strictly above the running maximum, so a
challenger that merely EQUALS the holder but precedes it in the list becomes
the leader, takes the 2 points and the title.  Here both players have length
5 ≥ 5, the holder is P1, and after the update the title and the 2 points
have moved to P0. -/
theorem c2_longest_road_tie_transfers_to_earlier_player :
    c2Held.longestRoadPlayerId = some "P1" ∧
    (getPlayerById c2Held "P0").map (fun p => p.longestRoad) = some 5 ∧
    (getPlayerById c2Held "P1").map (fun p => p.longestRoad) = some 5 ∧
    (updateLongestRoadBonus c2Held).longestRoadPlayerId = some "P0" ∧
    ((updateLongestRoadBonus c2Held).players.map (fun p => p.victoryPoints)) = [2, 0] := by
  decide

/-- Fixture board for the missing-victory-check scenario: a six-vertex path;
the first four edges are roads of P0, the fifth is free. -/
def c3Board : Board :=
  { hexes := [],
    vertices := [freshVertex "v1" [], freshVertex "v2" [], freshVertex "v3" [],
                 freshVertex "v4" [], freshVertex "v5" [], freshVertex "v6" []],
    edges := [{ freshEdge "e1" "v1" "v2" with road := true, playerId := some "P0" },
              { freshEdge "e2" "v2" "v3" with road := true, playerId := some "P0" },
              { freshEdge "e3" "v3" "v4" with road := true, playerId := some "P0" },
              { freshEdge "e4" "v4" "v5" with road := true, playerId := some "P0" },
              freshEdge "e5" "v5" "v6"],
    harbors := [] }

/-- Fixture: P0 has 8 visible points, 4 roads built, and the cost of one
more road in hand. -/
def c3Player : Player :=
  { freshPlayer "P0" with
    victoryPoints := 8, roadsBuilt := 4, resources := ⟨1, 1, 0, 0, 0⟩ }

/-- Fixture: main phase, P0 to act. -/
def c3State : GameState :=
  { baseState c3Board [c3Player] with phase := .main }

/-- Fixture: the state returned by building the fifth road. -/
def c3After : GameState := (buildRoad c3State "P0" "e5" false).2

/-- C3: "after any mutating operation that changes some player victory
points (including buildRoad when it awards the Longest Road bonus), if a
player reaches settings.victoryPointsToWin the phase is `ended` and
winnerId is set."  This FAILS on the code: buildRoad (game.ts:364) calls
updateLongestRoadBonus but never checkVictory (game.ts:632), so here the
fifth road brings P0 from 8 to 10 = victoryPointsToWin visible points (P0
holds no hidden cards) yet the phase stays `main` and winnerId stays null;
the game does not end. -/
theorem c3_build_road_reaches_threshold_without_ending :
    (buildRoad c3State "P0" "e5" false).1 = true ∧
    (getPlayerById c3After "P0").map (fun p => p.victoryPoints) = some 10 ∧
    (getPlayerById c3After "P0").map (fun p => hiddenVP p) = some 0 ∧
    c3State.settings.victoryPointsToWin = 10 ∧
    c3After.phase = .main ∧
    c3After.phase ≠ .ended ∧
    c3After.winnerId = none := by
  decide

/-- A rejected buildRoad leaves the state untouched: the only `false` exit
comes before any mutation. -/
theorem buildRoad_false_frame (s : GameState) (pid eid : String) (free : Bool)
    (h : (buildRoad s pid eid free).1 = false) : (buildRoad s pid eid free).2 = s := by
  by_cases hc : canBuildRoad s pid eid free
  · simp [buildRoad, hc] at h
  · simp [buildRoad, hc]

/-- A rejected buildSettlement leaves the state untouched. -/
theorem buildSettlement_false_frame (s : GameState) (pid vid : String)
    (h : (buildSettlement s pid vid).1 = false) : (buildSettlement s pid vid).2 = s := by
  by_cases hc : canBuildSettlement s pid vid
  · simp [buildSettlement, hc] at h
  · simp [buildSettlement, hc]

/-- A rejected buildCity leaves the state untouched. -/
theorem buildCity_false_frame (s : GameState) (pid vid : String)
    (h : (buildCity s pid vid).1 = false) : (buildCity s pid vid).2 = s := by
  by_cases hc : canBuildCity s pid vid
  · simp [buildCity, hc] at h
  · simp [buildCity, hc]

/-- Shared shape of the guarded operations: two rejection guards before the
single mutating exit. -/
theorem reject_pair_frame {c1 c2 : Prop} [Decidable c1] [Decidable c2]
    {s x : GameState}
    (h : (if c1 then (false, s) else if c2 then (false, s) else (true, x)).1 = false) :
    (if c1 then (false, s) else if c2 then (false, s) else (true, x)).2 = s := by
  by_cases h1 : c1
  · simp [h1]
  · by_cases h2 : c2
    · simp [h1, h2]
    · simp [h1, h2] at h

/-- A rejected bankTrade leaves the state untouched: all three `false` exits
(unknown player, ratio mismatch, insufficient funds) come before the
deduction and credit. -/
theorem bankTrade_false_frame (s : GameState) (pid : String) (g r : Resources)
    (h : (bankTrade s pid g r).1 = false) : (bankTrade s pid g r).2 = s := by
  unfold bankTrade at h ⊢
  cases hp : getPlayerById s pid with
  | none => simp [hp]
  | some p =>
    simp only [hp] at h ⊢
    exact reject_pair_frame h

/-- A rejected discardHalfResources leaves the state untouched. -/
theorem discard_false_frame (s : GameState) (pid : String) (res : Resources)
    (h : (discardHalfResources s pid res).1 = false) :
    (discardHalfResources s pid res).2 = s := by
  unfold discardHalfResources at h ⊢
  cases hp : getPlayerById s pid with
  | none => simp [hp]
  | some p =>
    simp only [hp] at h ⊢
    exact reject_pair_frame h

/-- C4: every validated mutating operation is atomic: whenever buildRoad,
buildSettlement, buildCity, bankTrade or discardHalfResources returns false,
the entire game state (players with their resources and counters, board
ownership, phase, every other field) is exactly the state passed in.  In the
source each of these functions reaches `return false` only before its first
mutation. -/
theorem c4_rejected_mutations_are_frame_preserving
    (s : GameState) (pid eid vid : String) (free : Bool) (g r res : Resources) :
    ((buildRoad s pid eid free).1 = false → (buildRoad s pid eid free).2 = s) ∧
    ((buildSettlement s pid vid).1 = false → (buildSettlement s pid vid).2 = s) ∧
    ((buildCity s pid vid).1 = false → (buildCity s pid vid).2 = s) ∧
    ((bankTrade s pid g r).1 = false → (bankTrade s pid g r).2 = s) ∧
    ((discardHalfResources s pid res).1 = false →
      (discardHalfResources s pid res).2 = s) :=
  ⟨buildRoad_false_frame s pid eid free,
   buildSettlement_false_frame s pid vid,
   buildCity_false_frame s pid vid,
   bankTrade_false_frame s pid g r,
   discard_false_frame s pid res⟩

/-- Witness for C4 on a concrete rejected input: in the one-player state
`c3State`, a second settlement, a city, a bank trade and a discard by the
unknown player "PX" are all rejected and leave the state intact, as is a
road on the already-occupied edge "e1". -/
theorem c4_witness :
    ((buildRoad c3State "P0" "e1" false).1 = false ∧
      (buildRoad c3State "P0" "e1" false).2 = c3State) ∧
    ((buildSettlement c3State "PX" "v1").1 = false ∧
      (buildSettlement c3State "PX" "v1").2 = c3State) ∧
    ((buildCity c3State "PX" "v1").1 = false ∧
      (buildCity c3State "PX" "v1").2 = c3State) ∧
    ((bankTrade c3State "PX" Resources.zero Resources.zero).1 = false ∧
      (bankTrade c3State "PX" Resources.zero Resources.zero).2 = c3State) ∧
    ((discardHalfResources c3State "PX" Resources.zero).1 = false ∧
      (discardHalfResources c3State "PX" Resources.zero).2 = c3State) := by
  refine ⟨⟨by decide, ?_⟩, ⟨by decide, ?_⟩, ⟨by decide, ?_⟩, ⟨by decide, ?_⟩, ⟨by decide, ?_⟩⟩
  · exact (c4_rejected_mutations_are_frame_preserving c3State "P0" "e1" "v1" false
      Resources.zero Resources.zero Resources.zero).1 (by decide)
  · exact (c4_rejected_mutations_are_frame_preserving c3State "PX" "e1" "v1" false
      Resources.zero Resources.zero Resources.zero).2.1 (by decide)
  · exact (c4_rejected_mutations_are_frame_preserving c3State "PX" "e1" "v1" false
      Resources.zero Resources.zero Resources.zero).2.2.1 (by decide)
  · exact (c4_rejected_mutations_are_frame_preserving c3State "PX" "e1" "v1" false
      Resources.zero Resources.zero Resources.zero).2.2.2.1 (by decide)
  · exact (c4_rejected_mutations_are_frame_preserving c3State "PX" "e1" "v1" false
      Resources.zero Resources.zero Resources.zero).2.2.2.2 (by decide)

/-- Every resource kind is in the iteration list. -/
theorem mem_resource_all (ρ : ResourceType) : ρ ∈ ResourceType.all := by
  cases ρ <;> decide

/-- Fixture: a player holding 9 cards (4 wood, 3 brick, 2 sheep). -/
def c7Player : Player :=
  { freshPlayer "P0" with resources := ⟨4, 3, 2, 0, 0⟩ }

/-- Fixture: the discard phase with P0 flagged. -/
def c7State : GameState :=
  { baseState c1Board [c7Player] with
    phase := .robber_discard, discardingPlayerIds := ["P0"] }

/-- Fixture: a pending open offer (no target player) from P0. -/
def c10Offer : TradeOffer :=
  { fromPlayerId := "P0", toPlayerId := none,
    offering := ⟨1, 0, 0, 0, 0⟩, requesting := ⟨0, 1, 0, 0, 0⟩, status := .pending }

/-- Fixture: a two-player trade-phase state holding `c10Offer`. -/
def c10State : GameState :=
  { baseState c1Board [freshPlayer "P0", freshPlayer "P1"] with
    phase := .trade, tradeOffer := some c10Offer }

/-- The state produced by an accepted discard: the submitted amounts deducted
from the (first) player with the given id, and that id dropped from the
pending-discard list. -/
def discardedState (s : GameState) (pid : String) (res : Resources) : GameState :=
  { s with
    players := updateFirst (fun q => q.id == pid)
      (fun q => { q with resources := q.resources.sub res }) s.players,
    discardingPlayerIds := s.discardingPlayerIds.filter (fun i => i != pid) }

/-- C7: discardHalfResources accepts a submitted multiset if and only if its
total equals floor(totalHand/2) of the player current hand and each submitted
amount is at most the player holding of that resource; on acceptance exactly
that multiset is deducted and the player is removed from discardingPlayerIds.
Any other total (such as 3 or 5 against a 9-card hand, see the witness) is
rejected. -/
theorem c7_discard_accepts_exactly_half
    (s : GameState) (pid : String) (res : Resources) (p : Player)
    (hp : getPlayerById s pid = some p) :
    ((discardHalfResources s pid res).1 = true ↔
      (res.total = (p.resources.total).fdiv 2 ∧
        ∀ ρ, res.get ρ ≤ p.resources.get ρ)) ∧
    ((discardHalfResources s pid res).1 = true →
      (discardHalfResources s pid res).2 = discardedState s pid res) := by
  have key : (discardHalfResources s pid res).1 = true ↔
      ((res.total != p.resources.total.fdiv 2) = false ∧
        (ResourceType.all.all fun ρ => decide (res.get ρ ≤ p.resources.get ρ)) = true) := by
    unfold discardHalfResources
    simp only [hp]
    by_cases h1 : (res.total != p.resources.total.fdiv 2) = true <;>
      by_cases h2 :
        (ResourceType.all.all fun ρ => decide (res.get ρ ≤ p.resources.get ρ)) = true <;>
      simp [h1, h2]
  constructor
  · rw [key]
    constructor
    · rintro ⟨h1, h2⟩
      refine ⟨by simpa using h1, fun ρ => ?_⟩
      have := List.all_eq_true.mp h2 ρ (mem_resource_all ρ)
      simpa using this
    · rintro ⟨h1, h2⟩
      refine ⟨by simpa using h1, List.all_eq_true.mpr fun ρ _ => by simpa using h2 ρ⟩
  · intro htrue
    rcases key.mp htrue with ⟨h1, h2⟩
    unfold discardHalfResources
    simp only [hp]
    simp [h1, h2, discardedState]

/-- Witness for C7: a 9-card hand (4 wood, 3 brick, 2 sheep) must submit
exactly 4 = floor(9/2); the submission of 4 (2 wood + 2 brick) is accepted,
deducted, and clears the pending list, while a submission of 3 is
rejected. -/
theorem c7_witness :
    (discardHalfResources c7State "P0" ⟨2, 2, 0, 0, 0⟩).1 = true ∧
    (discardHalfResources c7State "P0" ⟨2, 2, 0, 0, 0⟩).2 =
      discardedState c7State "P0" ⟨2, 2, 0, 0, 0⟩ ∧
    (discardHalfResources c7State "P0" ⟨2, 1, 0, 0, 0⟩).1 = false := by
  have hp : getPlayerById c7State "P0" = some c7Player := by decide
  have h4 := c7_discard_accepts_exactly_half c7State "P0" ⟨2, 2, 0, 0, 0⟩ c7Player hp
  have h3 := c7_discard_accepts_exactly_half c7State "P0" ⟨2, 1, 0, 0, 0⟩ c7Player hp
  have hacc : (discardHalfResources c7State "P0" ⟨2, 2, 0, 0, 0⟩).1 = true :=
    h4.1.mpr ⟨by decide, fun ρ => by cases ρ <;> decide⟩
  refine ⟨hacc, h4.2 hacc, ?_⟩
  by_contra hne
  have : (discardHalfResources c7State "P0" ⟨2, 1, 0, 0, 0⟩).1 = true := by
    revert hne
    cases hres : (discardHalfResources c7State "P0" ⟨2, 1, 0, 0, 0⟩).1 <;> simp [hres]
  have := (h3.1.mp this).1
  revert this
  decide

/-- C10: when the pending trade offer has toPlayerId null, acceptTrade still
returns true and clears state.tradeOffer, but transfers no resources: the
player list (hence every player resource count) is unchanged.  The source
also flips the status field of the discarded offer object to accepted just
before dropping the reference, which leaves no trace in the state. -/
theorem c10_accept_open_offer_moves_nothing
    (s : GameState) (o : TradeOffer) (p : Player)
    (hoff : s.tradeOffer = some o) (hst : o.status = .pending)
    (hto : o.toPlayerId = none)
    (hfrom : getPlayerById s o.fromPlayerId = some p) :
    acceptTrade s = (true, { s with tradeOffer := none }) ∧
    (acceptTrade s).2.players = s.players := by
  have : acceptTrade s = (true, { s with tradeOffer := none }) := by
    unfold acceptTrade
    simp only [hoff, hst, hto, hfrom]
    simp
  exact ⟨this, by rw [this]⟩

/-- Witness for C10: a two-player state with a pending open offer from P0;
acceptTrade returns true, clears the offer, and leaves the players intact. -/
theorem c10_witness :
    acceptTrade c10State = (true, { c10State with tradeOffer := none }) ∧
    (acceptTrade c10State).2.players = c10State.players :=
  c10_accept_open_offer_moves_nothing c10State c10Offer (freshPlayer "P0")
    (by decide) (by decide) (by decide) (by decide)

/-- Whether the player reaches (through a building of theirs) some generic
3:1 harbor. -/
def hasGenericHarbor (b : Board) (pid : String) : Bool :=
  (getPlayerHarbors b pid).any (fun h => h.type == .generic)

/-- Whether the player reaches the 2:1 harbor of resource `ρ`. -/
def hasSpecificHarbor (b : Board) (pid : String) (ρ : ResourceType) : Bool :=
  (getPlayerHarbors b pid).any (fun h => h.type == harborOf ρ)

/-- The effective ratio as the claim states it: the minimum of the default 4,
3 when a generic harbor is reachable, and 2 when the matching resource
harbor is reachable. -/
def bestRatio (b : Board) (pid : String) (ρ : ResourceType) : Int :=
  min (min 4 (if hasGenericHarbor b pid then 3 else 4))
      (if hasSpecificHarbor b pid ρ then 2 else 4)

/-- The claim-side worth of the given amounts, scaled by 12 to stay in `Int`:
a unit of `ρ` is worth `12 / ratio` twelfths. -/
def tradeValue12 (b : Board) (pid : String) (g : Resources) : Int :=
  (ResourceType.all.map (fun ρ => g.get ρ * (12 / bestRatio b pid ρ))).sum

/-- The state produced by an accepted bank trade: the given amounts deducted
and the requested amounts credited, on the (first) player with the given
id. -/
def bankTradedState (s : GameState) (pid : String) (g r : Resources) : GameState :=
  let ps := updateFirst (fun q => q.id == pid)
    (fun q => { q with resources := (q.resources.sub g).add r }) s.players
  { s with players := ps }

/-- The contribution of one harbor to the ratio of `ρ`. -/
def harborStep (h : Harbor) (ρ : ResourceType) : Int :=
  if h.type == .generic then 3 else if h.type == harborOf ρ then 2 else 4

/-- One harbor application lowers the ratio of `ρ` to the minimum with the
harbor contribution (given the running ratio never exceeds 4). -/
theorem applyHarbor_get (r0 : Resources) (h : Harbor) (ρ : ResourceType)
    (hr : r0.get ρ ≤ 4) :
    (applyHarbor r0 h).get ρ = min (r0.get ρ) (harborStep h ρ) := by
  rcases h with ⟨hid, ht, hv⟩
  cases ht <;> cases ρ <;>
    simp [applyHarbor, harborStep, Resources.get, harborOf] <;>
    split_ifs <;> simp [Resources.get] at * <;> omega

/-- The harbor fold computes the minimum of the start ratio and the best
harbor contribution. -/
theorem foldl_applyHarbor_get (hs : List Harbor) (r0 : Resources) (ρ : ResourceType)
    (hr : r0.get ρ ≤ 4) :
    (hs.foldl applyHarbor r0).get ρ =
      min (r0.get ρ)
        (min (if hs.any (fun h => h.type == .generic) then 3 else 4)
             (if hs.any (fun h => h.type == harborOf ρ) then 2 else 4)) := by
  induction hs generalizing r0 with
  | nil => simp; omega
  | cons h t ih =>
    rw [List.foldl_cons]
    have hb : (applyHarbor r0 h).get ρ ≤ 4 := by
      rw [applyHarbor_get r0 h ρ hr]
      have : harborStep h ρ ≤ 4 := by
        unfold harborStep; split_ifs <;> omega
      omega
    rw [ih _ hb, applyHarbor_get r0 h ρ hr]
    by_cases h1 : (h.type == HarborType.generic) = true
    · have h2 : (h.type == harborOf ρ) = false := by
        rw [eq_of_beq h1]; cases ρ <;> rfl
      by_cases h3 : t.any (fun x => x.type == HarborType.generic) = true <;>
        by_cases h4 : t.any (fun x => x.type == harborOf ρ) = true <;>
        simp [List.any_cons, h1, h2, h3, h4, harborStep] <;> omega
    · by_cases h2 : (h.type == harborOf ρ) = true <;>
        by_cases h3 : t.any (fun x => x.type == HarborType.generic) = true <;>
        by_cases h4 : t.any (fun x => x.type == harborOf ρ) = true <;>
        simp [List.any_cons, h1, h2, h3, h4, harborStep] <;> omega

/-- The per-resource ratio of the source equals the claimed minimum. -/
theorem getPlayerTradeRatios_eq_bestRatio (s : GameState) (pid : String) (ρ : ResourceType) :
    (getPlayerTradeRatios s pid).get ρ = bestRatio s.board pid ρ := by
  unfold getPlayerTradeRatios bestRatio hasGenericHarbor hasSpecificHarbor
  rw [foldl_applyHarbor_get _ _ _ (by cases ρ <;> decide)]
  have h4 : (⟨4, 4, 4, 4, 4⟩ : Resources).get ρ = 4 := by cases ρ <;> rfl
  rw [h4]
  split_ifs <;> omega

/-- The best ratio is always 2, 3 or 4. -/
theorem bestRatio_cases (b : Board) (pid : String) (ρ : ResourceType) :
    bestRatio b pid ρ = 2 ∨ bestRatio b pid ρ = 3 ∨ bestRatio b pid ρ = 4 := by
  unfold bestRatio
  split_ifs <;> omega

/-- Dividing by a ratio of 2, 3 or 4 equals the integer twelfth-value over
12. -/
theorem div_ratio_eq (x q : Int) (hq : q = 2 ∨ q = 3 ∨ q = 4) :
    (x : ℚ) / (q : ℚ) = ((x * (12 / q) : Int) : ℚ) / 12 := by
  rcases hq with h | h | h <;> subst h <;> push_cast <;> ring

/-- A positivity-guarded division step over a nonnegative amount is the
unguarded step (a zero amount contributes zero). -/
theorem guard_div_step {x : Int} (t c : ℚ) (hx : 0 ≤ x) :
    (if x > 0 then t + (x : ℚ) / c else t) = t + (x : ℚ) / c := by
  split_ifs with h
  · rfl
  · have hx0 : x = 0 := le_antisymm (not_lt.mp h) hx
    simp [hx0]

/-- A positivity-guarded addition step over a nonnegative amount is the
unguarded step. -/
theorem guard_add_step {x : Int} (t : ℚ) (hx : 0 ≤ x) :
    (if x > 0 then t + (x : ℚ) else t) = t + (x : ℚ) := by
  split_ifs with h
  · rfl
  · have hx0 : x = 0 := le_antisymm (not_lt.mp h) hx
    simp [hx0]

/-- For nonnegative requested amounts the source accumulator is exactly the
total. -/
theorem bankTotalReceiving_eq (r : Resources) (hr : ∀ ρ, 0 ≤ r.get ρ) :
    bankTotalReceiving r = (r.total : ℚ) := by
  unfold bankTotalReceiving ResourceType.all
  rw [List.foldl_cons, List.foldl_cons, List.foldl_cons, List.foldl_cons,
      List.foldl_cons, List.foldl_nil]
  rw [guard_add_step _ (hr .wood), guard_add_step _ (hr .brick),
      guard_add_step _ (hr .sheep), guard_add_step _ (hr .wheat),
      guard_add_step _ (hr .ore)]
  simp only [Resources.get, Resources.total]
  push_cast
  ring

/-- For nonnegative given amounts the source accumulator is the claim-side
twelfth-value over 12, through the per-resource best ratio. -/
theorem bankTotalGiving_eq (b : Board) (pid : String) (g ratios : Resources)
    (hratios : ∀ ρ, ratios.get ρ = bestRatio b pid ρ)
    (hg : ∀ ρ, 0 ≤ g.get ρ) :
    bankTotalGiving ratios g = (tradeValue12 b pid g : ℚ) / 12 := by
  unfold bankTotalGiving tradeValue12 ResourceType.all
  rw [List.foldl_cons, List.foldl_cons, List.foldl_cons, List.foldl_cons,
      List.foldl_cons, List.foldl_nil]
  rw [guard_div_step _ _ (hg .wood), guard_div_step _ _ (hg .brick),
      guard_div_step _ _ (hg .sheep), guard_div_step _ _ (hg .wheat),
      guard_div_step _ _ (hg .ore)]
  rw [hratios .wood, hratios .brick, hratios .sheep, hratios .wheat, hratios .ore]
  rw [div_ratio_eq _ _ (bestRatio_cases b pid .wood),
      div_ratio_eq _ _ (bestRatio_cases b pid .brick),
      div_ratio_eq _ _ (bestRatio_cases b pid .sheep),
      div_ratio_eq _ _ (bestRatio_cases b pid .wheat),
      div_ratio_eq _ _ (bestRatio_cases b pid .ore)]
  simp only [List.map_cons, List.map_nil, List.sum_cons, List.sum_nil]
  push_cast
  ring

/-- The 0.001-tolerance test of the source accepts an integral twelfth-value
against an integral total exactly when they agree: any disagreement is at
least 1/12, far above the tolerance. -/
theorem tolerance_iff (n m : Int) :
    |(n : ℚ) / 12 - (m : ℚ)| ≤ 1 / 1000 ↔ n = 12 * m := by
  constructor
  · intro h
    have key : ((n : ℚ) - 12 * m) = 12 * ((n : ℚ) / 12 - (m : ℚ)) := by ring
    have habs : |(n : ℚ) - 12 * m| ≤ 12 / 1000 := by
      rw [key, abs_mul, abs_of_nonneg (by norm_num : (0 : ℚ) ≤ 12)]
      linarith
    by_contra hne
    have h0 : n - 12 * m ≠ 0 := by omega
    have h1 : 1 ≤ |n - 12 * m| := Int.one_le_abs h0
    have h1q : ((1 : Int) : ℚ) ≤ ((|n - 12 * m| : Int) : ℚ) := Int.cast_le.mpr h1
    push_cast at h1q
    linarith
  · intro h
    subst h
    have : ((12 * m : Int) : ℚ) / 12 - (m : ℚ) = 0 := by push_cast; ring
    rw [this]
    norm_num

/-- C6: for every player and every resource the effective bank-trade ratio
is the minimum of 4, 3 with a reachable generic harbor and 2 with the
matching resource harbor (`bestRatio`); and bankTrade succeeds exactly when
the sum over the given resources of amount/ratio equals the total requested
units (stated scaled by 12 so both sides are integers: `tradeValue12` is
`Σ amount·(12/ratio)`) and the player holds at least the given amounts, in
which case the given amounts are deducted and the requested amounts
credited.  The source compares the two totals in floating point with
tolerance 0.001; over the exact rationals any disagreement is at least 1/12,
so the tolerance test is equality.  Amounts are the submitted multisets,
hence nonnegative. -/
theorem c6_bank_trade_ratios_and_validation
    (s : GameState) (pid : String) (giving receiving : Resources) (p : Player)
    (hp : getPlayerById s pid = some p)
    (hg : ∀ ρ, 0 ≤ giving.get ρ) (hr : ∀ ρ, 0 ≤ receiving.get ρ) :
    (∀ ρ, (getPlayerTradeRatios s pid).get ρ = bestRatio s.board pid ρ) ∧
    ((bankTrade s pid giving receiving).1 = true ↔
      (tradeValue12 s.board pid giving = 12 * receiving.total ∧
        ∀ ρ, giving.get ρ ≤ p.resources.get ρ)) ∧
    ((bankTrade s pid giving receiving).1 = true →
      (bankTrade s pid giving receiving).2 = bankTradedState s pid giving receiving) := by
  have hG : bankTotalGiving (getPlayerTradeRatios s pid) giving
      = (tradeValue12 s.board pid giving : ℚ) / 12 :=
    bankTotalGiving_eq s.board pid giving _
      (fun ρ => getPlayerTradeRatios_eq_bestRatio s pid ρ) hg
  have hR : bankTotalReceiving receiving = (receiving.total : ℚ) :=
    bankTotalReceiving_eq receiving hr
  have hcond : (¬ |bankTotalGiving (getPlayerTradeRatios s pid) giving
        - bankTotalReceiving receiving| > 1 / 1000) ↔
      tradeValue12 s.board pid giving = 12 * receiving.total := by
    rw [not_lt, hG, hR]
    exact tolerance_iff _ _
  have key : (bankTrade s pid giving receiving).1 = true ↔
      ((¬ |bankTotalGiving (getPlayerTradeRatios s pid) giving
          - bankTotalReceiving receiving| > 1 / 1000) ∧ hasResources p giving = true) := by
    unfold bankTrade
    simp only [hp]
    by_cases h1 : |bankTotalGiving (getPlayerTradeRatios s pid) giving
        - bankTotalReceiving receiving| > 1 / 1000
    · rw [if_pos h1]
      exact iff_of_false (by simp) (fun hc => hc.1 h1)
    · rw [if_neg h1]
      by_cases h2 : hasResources p giving = true
      · rw [if_neg (not_not_intro h2)]
        exact iff_of_true rfl ⟨h1, h2⟩
      · rw [if_pos h2]
        exact iff_of_false (by simp) (fun hc => h2 hc.2)
  have hsuff : hasResources p giving = true ↔ ∀ ρ, giving.get ρ ≤ p.resources.get ρ := by
    unfold hasResources
    rw [List.all_eq_true]
    constructor
    · intro h ρ
      simpa using h ρ (mem_resource_all ρ)
    · intro h ρ _
      simpa using h ρ
  refine ⟨fun ρ => getPlayerTradeRatios_eq_bestRatio s pid ρ, ?_, ?_⟩
  · rw [key, hcond, hsuff]
  · intro htrue
    rcases key.mp htrue with ⟨h1, h2⟩
    unfold bankTrade
    simp only [hp]
    rw [if_neg h1, if_neg (not_not_intro h2)]
    simp [bankTradedState]

/-- Fixture: a player holding 2 wheat with a settlement on the wheat-harbor
vertex vH. -/
def c6Player : Player :=
  { freshPlayer "P0" with resources := ⟨0, 0, 0, 2, 0⟩ }

/-- Fixture board: vertex vH carries the settlement of P0 and references the
2:1 wheat harbor H. -/
def c6Board : Board :=
  { hexes := [],
    vertices := [{ freshVertex "vH" [] with
      building := some .settlement, playerId := some "P0", harborId := some "H" }],
    edges := [],
    harbors := [{ id := "H", type := .wheat, vertexIds := ["vH"] }] }

/-- Fixture: the main phase with the wheat-harbor player. -/
def c6State : GameState :=
  { baseState c6Board [c6Player] with phase := .main }

/-- Fixture: giving 2 wheat. -/
def c6Give : Resources := ⟨0, 0, 0, 2, 0⟩

/-- Fixture: requesting 1 wood. -/
def c6Recv : Resources := ⟨1, 0, 0, 0, 0⟩

/-- Witness for C6: with the 2:1 wheat harbor the wheat ratio is 2 (wood
stays 4), and trading 2 wheat for 1 wood validates (2·(12/2) = 12·1) and
performs exactly the deduction and credit. -/
theorem c6_witness :
    (getPlayerTradeRatios c6State "P0").get .wheat = bestRatio c6State.board "P0" .wheat ∧
    bestRatio c6State.board "P0" .wheat = 2 ∧
    bestRatio c6State.board "P0" .wood = 4 ∧
    (bankTrade c6State "P0" c6Give c6Recv).1 = true ∧
    (bankTrade c6State "P0" c6Give c6Recv).2 = bankTradedState c6State "P0" c6Give c6Recv := by
  have h := c6_bank_trade_ratios_and_validation c6State "P0" c6Give c6Recv c6Player
    (by decide) (fun ρ => by cases ρ <;> decide) (fun ρ => by cases ρ <;> decide)
  have htrue : (bankTrade c6State "P0" c6Give c6Recv).1 = true :=
    h.2.1.mpr ⟨by decide, fun ρ => by cases ρ <;> decide⟩
  exact ⟨h.1 .wheat, by decide, by decide, htrue, h.2.2 htrue⟩

/-- A record of zero units of a single resource is the zero record. -/
theorem Resources.single_zero (ρ : ResourceType) : Resources.single ρ 0 = Resources.zero := by
  cases ρ <;> rfl

/-- Adding the zero record is the identity. -/
theorem Resources.add_zero_eq (a : Resources) : a.add Resources.zero = a := by
  rcases a with ⟨w, b, sh, wh, o⟩
  simp [Resources.add, Resources.zero]

/-- Adding to the zero record is the identity. -/
theorem Resources.zero_add_eq (a : Resources) : Resources.zero.add a = a := by
  rcases a with ⟨w, b, sh, wh, o⟩
  simp [Resources.add, Resources.zero]

/-- Resource addition is associative. -/
theorem Resources.add_assoc_eq (a b c : Resources) :
    (a.add b).add c = a.add (b.add c) := by
  rcases a with ⟨aw, ab, as, ah, ao⟩
  rcases b with ⟨bw, bb, bs, bh, bo⟩
  rcases c with ⟨cw, cb, cs, ch, co⟩
  simp [Resources.add]
  omega

/-- Two single-resource records of the same kind add their amounts. -/
theorem Resources.single_add (ρ : ResourceType) (m n : Int) :
    (Resources.single ρ m).add (Resources.single ρ n) = Resources.single ρ (m + n) := by
  cases ρ <;> simp [Resources.single, Resources.zero, Resources.setAmount, Resources.add]

/-- The increment statement of the source is addition of a single-resource
record. -/
theorem Resources.addAmount_eq (a : Resources) (ρ : ResourceType) (n : Int) :
    a.addAmount ρ n = a.add (Resources.single ρ n) := by
  rcases a with ⟨w, b, sh, wh, o⟩
  cases ρ <;> simp [Resources.addAmount, Resources.single, Resources.zero,
    Resources.setAmount, Resources.add]

/-- Sum of a list of resource records. -/
def Resources.sumList (l : List Resources) : Resources :=
  l.foldr Resources.add Resources.zero

/-- The production credited to `pid` by one occupied vertex: 1 per
settlement, 2 per city, 0 otherwise or for other owners. -/
def vertexPayout (pid : String) (v : Vertex) : Int :=
  match v.playerId, v.building with
  | some q, some b => if q = pid then (if b == .city then 2 else 1) else 0
  | _, _ => 0

/-- The production credited to `pid` by one hex on dice total `X`: nothing
for a number mismatch, a robbed hex or the desert; otherwise the vertex
payouts of the hex in its resource. -/
def hexGain (b : Board) (X : Int) (pid : String) (h : HexTile) : Resources :=
  if h.number = some X ∧ ¬ h.hasRobber then
    match terrainToResource h.terrain with
    | some ρ => Resources.single ρ (((getHexVertices b h.id).map (vertexPayout pid)).sum)
    | none => Resources.zero
  else Resources.zero

/-- The total production credited to `pid` by a roll of `X`. -/
def totalGain (b : Board) (X : Int) (pid : String) : Resources :=
  Resources.sumList (b.hexes.map (hexGain b X pid))

/-- Adding a resource record to a player. -/
def addResourcesTo (r : Resources) (p : Player) : Player :=
  { p with resources := p.resources.add r }

/-- Updating the first player with one id, through a function that only
rewrites resources, commutes with looking up the first player with another
id. -/
theorem find?_updateFirst_addAmount (ps : List Player) (pid qid : String)
    (ρ : ResourceType) (n : Int) :
    (updateFirst (fun p => p.id == qid) (addAmountTo ρ n) ps).find?
        (fun p => p.id == pid) =
      if qid = pid then
        (ps.find? (fun p => p.id == pid)).map (addAmountTo ρ n)
      else ps.find? (fun p => p.id == pid) := by
  induction ps with
  | nil => simp [updateFirst]
  | cons a l ih =>
    by_cases ha : (a.id == qid) = true
    · have haq : a.id = qid := eq_of_beq ha
      by_cases hqp : qid = pid
      · subst hqp
        simp [updateFirst, ha, List.find?, haq, addAmountTo]
      · have hap : (a.id == pid) = false := by
          simp [haq]
          exact hqp
        simp [updateFirst, ha, List.find?, hap, hqp, addAmountTo]
    · by_cases hap : (a.id == pid) = true
      · have : qid ≠ pid := by
          intro hq
          subst hq
          exact absurd hap (by simpa using ha)
        simp [updateFirst, ha, List.find?, hap, this]
      · simp [updateFirst, ha, List.find?, hap, ih]

/-- The vertex loop of one producing hex credits the first player with each
viewed id; looked up by id, the net effect is adding the summed vertex
payouts in the hex resource. -/
theorem creditVertex_fold_find (ρ : ResourceType) (vs : List Vertex)
    (ps : List Player) (pid : String) :
    (vs.foldl (creditVertex ρ) ps).find? (fun p => p.id == pid) =
      (ps.find? (fun p => p.id == pid)).map
        (addResourcesTo (Resources.single ρ ((vs.map (vertexPayout pid)).sum))) := by
  induction vs generalizing ps with
  | nil =>
    cases h : ps.find? (fun p => p.id == pid) <;>
      simp [h, Resources.single_zero, Resources.add_zero_eq, addResourcesTo]
  | cons v vs ih =>
    rw [List.foldl_cons, ih]
    rcases hv : v.playerId with _ | qid <;> rcases hb : v.building with _ | bld
    · simp [creditVertex, hv, hb, vertexPayout]
    · simp [creditVertex, hv, hb, vertexPayout]
    · simp only [creditVertex, hv, hb]
      simp [vertexPayout, hv, hb]
    · simp only [creditVertex, hv, hb]
      rw [find?_updateFirst_addAmount]
      by_cases hqp : qid = pid
    
      · rw [if_pos hqp]
        cases h : ps.find? (fun p => p.id == pid) with
        | none => simp [h]
        | some p =>
          simp only [h, Option.map_some, Option.map_map, List.map_cons, List.sum_cons,
            vertexPayout, hv, hb, hqp, Function.comp]
          simp [addResourcesTo, addAmountTo, Resources.addAmount_eq,
            Resources.add_assoc_eq, Resources.single_add]
      · rw [if_neg hqp]
        cases h : ps.find? (fun p => p.id == pid) with
        | none => simp [h]
        | some p =>
          simp only [h, Option.map_some, List.map_cons, List.sum_cons,
            vertexPayout, hv, hb]
          have : qid = pid ↔ False := iff_false_intro hqp
          simp [this]

/-- The hex loop adds the summed hex gains, looked up by id. -/
theorem creditHex_fold_find (b : Board) (X : Int) (hexes : List HexTile)
    (ps : List Player) (pid : String) :
    (hexes.foldl (creditHex b X) ps).find? (fun p => p.id == pid) =
      (ps.find? (fun p => p.id == pid)).map
        (addResourcesTo (Resources.sumList (hexes.map (hexGain b X pid)))) := by
  induction hexes generalizing ps with
  | nil =>
    cases h : ps.find? (fun p => p.id == pid) <;>
      simp [h, Resources.sumList, Resources.add_zero_eq, addResourcesTo]
  | cons hex hexes ih =>
    rw [List.foldl_cons, ih]
    by_cases hskip : (hex.number != some X || hex.hasRobber) = true
    · have hgain : hexGain b X pid hex = Resources.zero := by
        unfold hexGain
        rw [if_neg]
        simp only [Bool.or_eq_true, bne_iff_ne] at hskip
        rintro ⟨hn, hr⟩
        rcases hskip with h | h
        · exact h hn
        · exact hr h
      cases h : ps.find? (fun p => p.id == pid) with
      | none => simp [creditHex, hskip, h]
      | some p =>
        simp [creditHex, hskip, h, hgain, Resources.sumList, Resources.add_assoc_eq,
          Resources.zero_add_eq, addResourcesTo]
    · have hcond : hex.number = some X ∧ ¬ hex.hasRobber := by
        simp only [Bool.or_eq_true, bne_iff_ne] at hskip
        push_neg at hskip
        exact ⟨hskip.1, by simpa using hskip.2⟩
      have hgain : hexGain b X pid hex =
          match terrainToResource hex.terrain with
          | some ρ => Resources.single ρ
              (((getHexVertices b hex.id).map (vertexPayout pid)).sum)
          | none => Resources.zero := by
        unfold hexGain
        rw [if_pos hcond]
      rcases ht : terrainToResource hex.terrain with _ | ρ
      · cases h : ps.find? (fun p => p.id == pid) with
        | none => simp [creditHex, hskip, ht, h]
        | some p =>
          simp [creditHex, hskip, ht, h, hgain, Resources.sumList,
            Resources.add_assoc_eq, Resources.zero_add_eq, addResourcesTo]
      · rw [show creditHex b X ps hex =
            (getHexVertices b hex.id).foldl (creditVertex ρ) ps from by
          simp [creditHex, hskip, ht]]
        rw [creditVertex_fold_find]
        cases h : ps.find? (fun p => p.id == pid) with
        | none => simp [h]
        | some p =>
          simp only [h, Option.map_some, Option.map_map, Function.comp, List.map_cons,
            hgain, ht, Resources.sumList, List.foldr_cons]
          simp [addResourcesTo, Resources.add_assoc_eq]

/-- C8: distributeResources credits, for each hex whose number equals the
dice total and which does not hold the robber, 1 unit of the hex resource
per adjacent settlement and 2 per adjacent city to the building owner; a
robbed hex and the desert (whose number is null and whose terrain maps to no
resource) credit nothing, and nothing else changes: looked up by id, every
player ends with exactly its former resources plus `totalGain`, and every
non-player field of the state is untouched. -/
theorem c8_distribute_resources_pays_adjacent_buildings
    (s : GameState) (X : Int) (pid : String) :
    getPlayerById (distributeResources s X) pid =
      (getPlayerById s pid).map (addResourcesTo (totalGain s.board X pid)) ∧
    (distributeResources s X).board = s.board ∧
    (distributeResources s X).phase = s.phase ∧
    (distributeResources s X).currentPlayerIndex = s.currentPlayerIndex ∧
    (distributeResources s X).discardingPlayerIds = s.discardingPlayerIds := by
  refine ⟨?_, rfl, rfl, rfl, rfl⟩
  unfold getPlayerById distributeResources totalGain
  exact creditHex_fold_find s.board X s.board.hexes s.players pid

/-!
Infrastructure for the two reachability invariants: the settlement distance
rule (C5) and the uniqueness of the robber (C9).  Both depend only on small
projections of the board: the endpoint pairs of the edges, the ids of the
built vertices, and the robber flags of the hexes.
-/

/-- The endpoint pairs of the road slots: immutable board topology. -/
def edgePairs (b : Board) : List (String × String) :=
  b.edges.map (fun e => e.vertexIds)

/-- The ids of the vertices carrying a building (of any kind and owner). -/
def builtIds (b : Board) : List String :=
  (b.vertices.filter (fun v => v.building.isSome)).map (fun v => v.id)

/-- No road slot loops back to its own vertex (true of every generated
board, where the two corners of a hex side are distinct intersections). -/
def noSelfLoop (b : Board) : Prop :=
  ∀ pr ∈ edgePairs b, pr.1 ≠ pr.2

/-- The settlement distance rule as a state predicate: no edge joins two
built vertices. -/
def distanceRuleHolds (b : Board) : Prop :=
  ∀ pr ∈ edgePairs b, ¬ (pr.1 ∈ builtIds b ∧ pr.2 ∈ builtIds b)

/-- The C5 board invariant. -/
def GoodBoard (b : Board) : Prop :=
  noSelfLoop b ∧ distanceRuleHolds b

/-- Decompose a successful find? into a prefix of non-matches, the found
element, and the rest. -/
theorem find?_decomp {α} (q : α → Bool) (l : List α) (a : α)
    (h : l.find? q = some a) :
    ∃ l₁ l₂, l = l₁ ++ a :: l₂ ∧ (∀ x ∈ l₁, q x = false) ∧ q a = true := by
  induction l with
  | nil => simp [List.find?] at h
  | cons x l ih =>
    by_cases hx : q x = true
    · refine ⟨[], l, ?_, by simp, ?_⟩
      · simp [List.find?, hx] at h
        rw [h]
        simp
      · simp [List.find?, hx] at h
        rw [← h]
        exact hx
    · have hx' : q x = false := by simpa using hx
      simp only [List.find?, hx'] at h
      rcases ih h with ⟨l₁, l₂, hl, hall, ha⟩
      refine ⟨x :: l₁, l₂, by rw [hl]; simp, ?_, ha⟩
      intro y hy
      rcases List.mem_cons.mp hy with rfl | hy
      · exact hx'
      · exact hall y hy

/-- updateFirst on a list whose prefix has no match rewrites exactly the
first matching element. -/
theorem updateFirst_append {α} (q : α → Bool) (f : α → α) (l₁ : List α) (a : α)
    (l₂ : List α) (h₁ : ∀ x ∈ l₁, q x = false) (ha : q a = true) :
    updateFirst q f (l₁ ++ a :: l₂) = l₁ ++ f a :: l₂ := by
  induction l₁ with
  | nil => simp [updateFirst, ha]
  | cons x l₁ ih =>
    have hx : q x = false := h₁ x (by simp)
    simp only [List.cons_append, updateFirst, hx]
    simp only [Bool.false_eq_true, if_false]
    exact congrArg (x :: .) (ih (fun y hy => h₁ y (by simp [hy])))

/-- updateFirst through a projection-preserving function preserves the
projected list. -/
theorem map_updateFirst_eq {α β} (q : α → Bool) (f : α → α) (k : α → β)
    (l : List α) (hk : ∀ a, k (f a) = k a) :
    (updateFirst q f l).map k = l.map k := by
  induction l with
  | nil => rfl
  | cons a l ih =>
    by_cases ha : q a = true <;> simp [updateFirst, ha, hk, ih]

/-- Clearing the first match of a singleton-count predicate leaves no
match. -/
theorem countP_updateFirst_clear {α} (p : α → Bool) (f : α → α) (l : List α)
    (hf : ∀ a, p (f a) = false) (hone : l.countP p = 1) :
    (updateFirst p f l).countP p = 0 := by
  induction l with
  | nil => simp [updateFirst]
  | cons a l ih =>
    by_cases ha : p a = true
    · have h2 : (a :: l).countP p = l.countP p + 1 := by
        simp [List.countP_cons, ha]
      have hl : l.countP p = 0 := by omega
      simp [updateFirst, ha, List.countP_cons, hf, hl]
    · have ha' : p a = false := by simpa using ha
      have h2 : (a :: l).countP p = l.countP p := by
        simp [List.countP_cons, ha']
      have hl : l.countP p = 1 := by omega
      simp [updateFirst, ha', List.countP_cons, ha, ih hl]

/-- Setting the first element matching an id predicate, in a list with no
current match of `p`, yields exactly one match of `p`. -/
theorem countP_updateFirst_set {α} (q p : α → Bool) (f : α → α) (l : List α)
    (hfp : ∀ a, p (f a) = true) (hzero : l.countP p = 0)
    (hex2 : ∃ x ∈ l, q x = true) :
    (updateFirst q f l).countP p = 1 := by
  induction l with
  | nil => simp at hex2
  | cons a l ih =>
    have hall := List.countP_eq_zero.mp hzero
    have hpa : p a = false := by
      have := hall a (by simp)
      simpa using this
    have hrest : l.countP p = 0 :=
      List.countP_eq_zero.mpr (fun x hx => hall x (by simp [hx]))
    by_cases ha : q a = true
    · have hp2 : p (f a) = true := hfp a
      simp [updateFirst, ha, List.countP_cons, hp2, hrest]
    · have ha' : q a = false := by simpa using ha
      have hex3 : ∃ x ∈ l, q x = true := by
        rcases hex2 with ⟨x, hx, hqx⟩
        rcases List.mem_cons.mp hx with rfl | hx
        · rw [hqx] at ha'
          cases ha'
        · exact ⟨x, hx, hqx⟩
      simp [updateFirst, ha', List.countP_cons, hpa, ih hrest hex3]

/-!
Board preservation facts.  Most operations never touch the board; road
placement touches only the ownership fields of edges; settlement and city
placement touch only the building fields of vertices; moveRobber touches
only the robber flags of hexes.
-/

theorem checkVictory_board (s : GameState) : (checkVictory s).board = s.board := by
  unfold checkVictory
  dsimp only
  repeat' split
  all_goals rfl

theorem updateLongestRoadBonus_board (s : GameState) :
    (updateLongestRoadBonus s).board = s.board := by
  unfold updateLongestRoadBonus
  dsimp only
  repeat' split
  all_goals rfl

theorem updateLargestArmyBonus_board (s : GameState) :
    (updateLargestArmyBonus s).board = s.board := by
  unfold updateLargestArmyBonus
  dsimp only
  repeat' split
  all_goals rfl

theorem giveStartingResources_board (s : GameState) :
    (giveStartingResources s).board = s.board := rfl

theorem advanceSetupTurn_board (s : GameState) :
    (advanceSetupTurn s).board = s.board := by
  unfold advanceSetupTurn
  dsimp only
  repeat' split
  all_goals simp [giveStartingResources_board]

theorem distributeResources_board (s : GameState) (X : Int) :
    (distributeResources s X).board = s.board := rfl

theorem discardHalfResources_board (s : GameState) (pid : String) (res : Resources) :
    ((discardHalfResources s pid res).2).board = s.board := by
  unfold discardHalfResources
  dsimp only
  repeat' split
  all_goals rfl

theorem bankTrade_board (s : GameState) (pid : String) (g r : Resources) :
    ((bankTrade s pid g r).2).board = s.board := by
  unfold bankTrade
  dsimp only
  repeat' split
  all_goals rfl

theorem createTradeOffer_board (s : GameState) (fp : String) (tp : Option String)
    (o r : Resources) : ((createTradeOffer s fp tp o r).2).board = s.board := by
  unfold createTradeOffer
  dsimp only
  repeat' split
  all_goals rfl

theorem acceptTrade_board (s : GameState) : ((acceptTrade s).2).board = s.board := by
  unfold acceptTrade
  dsimp only
  repeat' split
  all_goals rfl

theorem buyDevCard_board (s : GameState) (pid : String) :
    ((buyDevCard s pid).2).board = s.board := by
  unfold buyDevCard
  dsimp only
  repeat' split
  all_goals simp [checkVictory_board]

theorem playKnight_board (s : GameState) (pid : String) :
    ((playKnight s pid).2).board = s.board := by
  unfold playKnight
  dsimp only
  repeat' split
  all_goals simp [updateLargestArmyBonus_board]

theorem playRoadBuilding_board (s : GameState) (pid : String) :
    ((playRoadBuilding s pid).2).board = s.board := by
  unfold playRoadBuilding
  dsimp only
  repeat' split
  all_goals rfl

theorem playYearOfPlenty_board (s : GameState) (pid : String) (r1 r2 : ResourceType) :
    ((playYearOfPlenty s pid r1 r2).2).board = s.board := by
  unfold playYearOfPlenty
  dsimp only
  repeat' split
  all_goals rfl

theorem playMonopoly_board (s : GameState) (pid : String) (ρ : ResourceType) :
    ((playMonopoly s pid ρ).2).board = s.board := by
  unfold playMonopoly
  dsimp only
  repeat' split
  all_goals rfl

theorem endTurn_board (s : GameState) : (endTurn s).board = s.board := by
  unfold endTurn
  dsimp only
  repeat' split
  all_goals rfl

theorem stealResource_board (s : GameState) (tid : String) (k : Nat) :
    ((stealResource s tid k).2).board = s.board := by
  unfold stealResource
  dsimp only
  repeat' split
  all_goals rfl

theorem buildRoad_vertices (s : GameState) (pid eid : String) (free : Bool) :
    ((buildRoad s pid eid free).2).board.vertices = s.board.vertices := by
  unfold buildRoad
  dsimp only
  split
  · rfl
  · rw [updateLongestRoadBonus_board]
    split <;> rfl

theorem buildRoad_hexes (s : GameState) (pid eid : String) (free : Bool) :
    ((buildRoad s pid eid free).2).board.hexes = s.board.hexes := by
  unfold buildRoad
  dsimp only
  split
  · rfl
  · rw [updateLongestRoadBonus_board]
    split <;> rfl

theorem buildRoad_edgePairs (s : GameState) (pid eid : String) (free : Bool) :
    edgePairs ((buildRoad s pid eid free).2).board = edgePairs s.board := by
  unfold buildRoad
  dsimp only
  split
  · rfl
  · rw [updateLongestRoadBonus_board]
    simp only [edgePairs]
    rw [map_updateFirst_eq (fun (e : Edge) => e.id == eid)
      (fun (e : Edge) => { e with road := true, playerId := some pid })
      (fun (e : Edge) => e.vertexIds) _ (fun e => rfl)]
    split <;> rfl

theorem placeInitialRoad_vertices (s : GameState) (pid eid : String) :
    ((placeInitialRoad s pid eid).2).board.vertices = s.board.vertices := by
  unfold placeInitialRoad
  dsimp only
  split
  · rfl
  · rw [advanceSetupTurn_board]

theorem placeInitialRoad_hexes (s : GameState) (pid eid : String) :
    ((placeInitialRoad s pid eid).2).board.hexes = s.board.hexes := by
  unfold placeInitialRoad
  dsimp only
  split
  · rfl
  · rw [advanceSetupTurn_board]

theorem placeInitialRoad_edgePairs (s : GameState) (pid eid : String) :
    edgePairs ((placeInitialRoad s pid eid).2).board = edgePairs s.board := by
  unfold placeInitialRoad
  dsimp only
  split
  · rfl
  · rw [advanceSetupTurn_board]
    simp only [edgePairs]
    rw [map_updateFirst_eq (fun (e : Edge) => e.id == eid)
      (fun (e : Edge) => { e with road := true, playerId := some pid })
      (fun (e : Edge) => e.vertexIds) _ (fun e => rfl)]

theorem buildRoadFromRoadBuilding_vertices (s : GameState) (pid eid : String) :
    ((buildRoadFromRoadBuilding s pid eid).2).board.vertices = s.board.vertices := by
  unfold buildRoadFromRoadBuilding
  dsimp only
  have hv := buildRoad_vertices s pid eid true
  rcases hbr : buildRoad s pid eid true with ⟨fst, snd⟩
  rw [hbr] at hv
  cases fst
  · repeat' split
    all_goals first | rfl | simp_all
  · repeat' split
    all_goals first | rfl | exact hv | simp_all

theorem buildRoadFromRoadBuilding_hexes (s : GameState) (pid eid : String) :
    ((buildRoadFromRoadBuilding s pid eid).2).board.hexes = s.board.hexes := by
  unfold buildRoadFromRoadBuilding
  dsimp only
  have hv := buildRoad_hexes s pid eid true
  rcases hbr : buildRoad s pid eid true with ⟨fst, snd⟩
  rw [hbr] at hv
  cases fst
  · repeat' split
    all_goals first | rfl | simp_all
  · repeat' split
    all_goals first | rfl | exact hv | simp_all

theorem buildRoadFromRoadBuilding_edgePairs (s : GameState) (pid eid : String) :
    edgePairs ((buildRoadFromRoadBuilding s pid eid).2).board = edgePairs s.board := by
  unfold buildRoadFromRoadBuilding
  dsimp only
  have hv := buildRoad_edgePairs s pid eid true
  rcases hbr : buildRoad s pid eid true with ⟨fst, snd⟩
  rw [hbr] at hv
  cases fst
  · repeat' split
    all_goals first | rfl | simp_all
  · repeat' split
    all_goals first | rfl | exact hv | simp_all

theorem moveRobber_vertices (s : GameState) (hid : String) :
    ((moveRobber s hid).2).board.vertices = s.board.vertices := by
  unfold moveRobber
  dsimp only
  split <;> rfl

theorem moveRobber_edgePairs (s : GameState) (hid : String) :
    edgePairs ((moveRobber s hid).2).board = edgePairs s.board := by
  unfold moveRobber
  dsimp only
  split <;> rfl

/-- An element satisfying a predicate that the rewrite preserves survives
updateFirst. -/
theorem exists_updateFirst {α} (q p : α → Bool) (f : α → α) (l : List α)
    (hp : ∀ a, p (f a) = p a) (h : ∃ x ∈ l, p x = true) :
    ∃ x ∈ updateFirst q f l, p x = true := by
  induction l with
  | nil => simp at h
  | cons a t ih =>
    rcases h with ⟨x, hx, hpx⟩
    by_cases hqa : q a = true
    · rcases List.mem_cons.mp hx with rfl | hxt
      · exact ⟨f x, by simp [updateFirst, hqa], by rw [hp x]; exact hpx⟩
      · exact ⟨x, by simp [updateFirst, hqa, hxt], hpx⟩
    · have hqa' : q a = false := by simpa using hqa
      rcases List.mem_cons.mp hx with rfl | hxt
      · exact ⟨x, by simp [updateFirst, hqa'], hpx⟩
      · rcases ih ⟨x, hxt, hpx⟩ with ⟨y, hy, hpy⟩
        exact ⟨y, by simp [updateFirst, hqa', hy], hpy⟩

/-- A successful or failed moveRobber preserves the unique-robber count: the
previous robber hex is cleared before the target hex is set. -/
theorem moveRobber_robberCount (s : GameState) (hid : String)
    (h1 : robberCount s.board = 1) :
    robberCount ((moveRobber s hid).2).board = 1 := by
  unfold moveRobber
  dsimp only
  cases hfind : s.board.hexes.find? (fun h => h.id == hid) with
  | none => exact h1
  | some hx =>
    unfold robberCount at h1 ⊢
    dsimp only
    have hzero : (updateFirst (fun h => h.hasRobber)
        (fun h => { h with hasRobber := false }) s.board.hexes).countP
        (fun h => h.hasRobber) = 0 :=
      countP_updateFirst_clear _ _ _ (fun a => rfl) h1
    refine countP_updateFirst_set _ _ _ _ (fun a => rfl) hzero ?_
    refine exists_updateFirst _ _ _ _ (fun a => rfl) ?_
    have hmem := List.mem_of_find?_eq_some hfind
    have hpa := List.find?_some hfind
    exact ⟨hx, hmem, hpa⟩

/-- The vertex rewrite performed by a settlement placement. -/
def placeBuildingAt (pid' : String) (v : Vertex) : Vertex :=
  { v with building := some .settlement, playerId := some pid' }

/-- The board after a settlement placement at `vid`. -/
def boardPlace (b : Board) (vid pid' : String) : Board :=
  let vs := updateFirst (fun w => w.id == vid) (placeBuildingAt pid') b.vertices
  { b with vertices := vs }

/-- The board after a city upgrade at `vid`. -/
def boardCity (b : Board) (vid : String) : Board :=
  let vs := updateFirst (fun w => w.id == vid)
    (fun w => { w with building := some .city }) b.vertices
  { b with vertices := vs }

/-- Membership in the built ids after a settlement placement on an empty
vertex: the placed id joins the built set and nothing else changes. -/
theorem builtIds_mem_place (b : Board) (vid pid' : String) (v : Vertex)
    (hfind : b.vertices.find? (fun w => w.id == vid) = some v)
    (hnone : v.building = none) (x : String) :
    (x ∈ builtIds (boardPlace b vid pid')) ↔ (x ∈ builtIds b ∨ x = vid) := by
  rcases find?_decomp _ _ _ hfind with ⟨l₁, l₂, hl, hpre, hqa⟩
  have hvid : v.id = vid := eq_of_beq hqa
  have hupd : updateFirst (fun w => w.id == vid) (placeBuildingAt pid') b.vertices
      = l₁ ++ placeBuildingAt pid' v :: l₂ := by
    rw [hl]
    exact updateFirst_append _ _ l₁ v l₂ hpre hqa
  have h1 : (placeBuildingAt pid' v).building.isSome = true := rfl
  have h2 : v.building.isSome = false := by rw [hnone]; rfl
  have hb2 : builtIds (boardPlace b vid pid')
      = ((l₁ ++ placeBuildingAt pid' v :: l₂).filter
          (fun w => w.building.isSome)).map (fun w => w.id) := by
    simp only [boardPlace, builtIds]
    rw [hupd]
  have hb : builtIds b
      = ((l₁ ++ v :: l₂).filter (fun w => w.building.isSome)).map (fun w => w.id) := by
    simp only [builtIds]
    rw [hl]
  have hpid : (placeBuildingAt pid' v).id = vid := by
    rw [placeBuildingAt]
    exact hvid
  have e1 : List.filter (fun w : Vertex => w.building.isSome) (placeBuildingAt pid' v :: l₂)
      = placeBuildingAt pid' v :: List.filter (fun w : Vertex => w.building.isSome) l₂ :=
    List.filter_cons_of_pos h1
  have e2 : List.filter (fun w : Vertex => w.building.isSome) (v :: l₂)
      = List.filter (fun w : Vertex => w.building.isSome) l₂ :=
    List.filter_cons_of_neg (by simp [h2])
  rw [hb2, hb, List.filter_append, List.filter_append, e1, e2]
  simp only [List.map_append, List.map_cons, List.mem_append, List.mem_cons, hpid]
  tauto

/-- The city upgrade keeps the built ids unchanged: the vertex already
carries a settlement. -/
theorem builtIds_city (b : Board) (vid : String) (v : Vertex)
    (hfind : b.vertices.find? (fun w => w.id == vid) = some v)
    (hsett : v.building = some .settlement) :
    builtIds (boardCity b vid) = builtIds b := by
  rcases find?_decomp _ _ _ hfind with ⟨l₁, l₂, hl, hpre, hqa⟩
  have hupd : updateFirst (fun w => w.id == vid)
        (fun w => { w with building := some .city }) b.vertices
      = l₁ ++ { v with building := some .city } :: l₂ := by
    rw [hl]
    exact updateFirst_append _ _ l₁ v l₂ hpre hqa
  have h1 : ({ v with building := some BuildingType.city } : Vertex).building.isSome = true := rfl
  have h2 : v.building.isSome = true := by rw [hsett]; rfl
  have hb2 : builtIds (boardCity b vid)
      = ((l₁ ++ ({ v with building := some BuildingType.city } : Vertex) :: l₂).filter
          (fun w => w.building.isSome)).map (fun w => w.id) := by
    simp only [boardCity, builtIds]
    rw [hupd]
  have hb : builtIds b
      = ((l₁ ++ v :: l₂).filter (fun w => w.building.isSome)).map (fun w => w.id) := by
    simp only [builtIds]
    rw [hl]
  have e1 : List.filter (fun w : Vertex => w.building.isSome)
        (({ v with building := some BuildingType.city } : Vertex) :: l₂)
      = ({ v with building := some BuildingType.city } : Vertex)
          :: List.filter (fun w : Vertex => w.building.isSome) l₂ :=
    List.filter_cons_of_pos h1
  have e2 : List.filter (fun w : Vertex => w.building.isSome) (v :: l₂)
      = v :: List.filter (fun w : Vertex => w.building.isSome) l₂ :=
    List.filter_cons_of_pos h2
  rw [hb2, hb, List.filter_append, List.filter_append, e1, e2]
  simp [List.map_append]

/-- A vertex id known to be adjacent through some edge pair is collected by
adjacentVertexIds (for the reversed orientation the pair must not be a
self-loop). -/
theorem mem_adjacent_of_pair (b : Board) (vid c : String)
    (h : (vid, c) ∈ edgePairs b ∨ ((c, vid) ∈ edgePairs b ∧ c ≠ vid)) :
    c ∈ adjacentVertexIds b vid := by
  unfold adjacentVertexIds
  rcases h with h | ⟨h, hne⟩
  · rcases List.mem_map.mp h with ⟨e, he, hpr⟩
    refine List.mem_filterMap.mpr ⟨e, he, ?_⟩
    have h1 : e.vertexIds.1 = vid := by rw [hpr]
    have h2 : e.vertexIds.2 = c := by rw [hpr]
    simp [h1, h2]
  · rcases List.mem_map.mp h with ⟨e, he, hpr⟩
    refine List.mem_filterMap.mpr ⟨e, he, ?_⟩
    have h1 : e.vertexIds.1 = c := by rw [hpr]
    have h2 : e.vertexIds.2 = vid := by rw [hpr]
    have hcv : (c == vid) = false := by
      simpa using hne
    simp [h1, h2, hcv]

/-- When the adjacency scan of the placement guard reports no building, no
id adjacent to the placed vertex is built. -/
theorem not_built_adjacent (b : Board) (vid : String)
    (hadj : (getAdjacentVertices b vid).any (fun w => w.building.isSome) = false)
    (c : String) (hc : c ∈ adjacentVertexIds b vid) : c ∉ builtIds b := by
  intro hcb
  rcases List.mem_map.mp hcb with ⟨w, hwf, hwid⟩
  rcases List.mem_filter.mp hwf with ⟨hwmem, hwsome⟩
  have hwadj : w ∈ getAdjacentVertices b vid := by
    unfold getAdjacentVertices
    refine List.mem_filter.mpr ⟨hwmem, ?_⟩
    rw [List.contains_iff_exists_mem_beq]
    exact ⟨c, hc, by rw [hwid]; simp⟩
  have hany : (getAdjacentVertices b vid).any (fun w => w.building.isSome) = true :=
    List.any_eq_true.mpr ⟨w, hwadj, hwsome⟩
  rw [hadj] at hany
  cases hany

/-- Placing a settlement on an empty vertex whose neighbourhood is
building-free preserves the distance-rule invariant. -/
theorem goodBoard_place (b : Board) (vid pid' : String) (v : Vertex)
    (hfind : b.vertices.find? (fun w => w.id == vid) = some v)
    (hnone : v.building = none)
    (hadj : (getAdjacentVertices b vid).any (fun w => w.building.isSome) = false)
    (hg : GoodBoard b) :
    GoodBoard (boardPlace b vid pid') := by
  obtain ⟨hloop, hrule⟩ := hg
  have hedges : edgePairs (boardPlace b vid pid') = edgePairs b := rfl
  constructor
  · intro pr hpr
    exact hloop pr (by rwa [hedges] at hpr)
  · intro pr hpr hcontra
    rw [hedges] at hpr
    rcases hcontra with ⟨h1, h2⟩
    rw [builtIds_mem_place b vid pid' v hfind hnone] at h1 h2
    have hpair : pr = (pr.1, pr.2) := rfl
    rcases h1 with h1 | h1
    · rcases h2 with h2 | h2
      · exact hrule pr hpr ⟨h1, h2⟩
      · -- pr.2 = vid, pr.1 built before: pr.1 is adjacent to vid
        have hado : pr.1 ∈ adjacentVertexIds b vid := by
          apply mem_adjacent_of_pair
          right
          constructor
          · rw [← h2, ← hpair]
            exact hpr
          · intro hq
            apply hloop pr hpr
            rw [hq, h2]
        exact not_built_adjacent b vid hadj pr.1 hado h1
    · rcases h2 with h2 | h2
      · -- pr.1 = vid, pr.2 built before
        have hado : pr.2 ∈ adjacentVertexIds b vid := by
          apply mem_adjacent_of_pair
          left
          rw [← h1, ← hpair]
          exact hpr
        exact not_built_adjacent b vid hadj pr.2 hado h2
      · -- both endpoints are vid: a self-loop
        apply hloop pr hpr
        rw [h1, h2]

/-- Invariance of the board invariant under equal projections. -/
theorem goodBoard_transfer {b b2 : Board} (he : edgePairs b2 = edgePairs b)
    (hb : builtIds b2 = builtIds b) (hg : GoodBoard b) : GoodBoard b2 := by
  obtain ⟨hl, hr⟩ := hg
  constructor
  · intro pr hpr
    exact hl pr (he ▸ hpr)
  · intro pr hpr
    rw [hb]
    exact hr pr (he ▸ hpr)

/-- Built ids only depend on the vertices. -/
theorem builtIds_congr {b b2 : Board} (h : b2.vertices = b.vertices) :
    builtIds b2 = builtIds b := by
  unfold builtIds
  rw [h]

/-- Edge pairs only depend on the edges. -/
theorem edgePairs_congr {b b2 : Board} (h : b2.edges = b.edges) :
    edgePairs b2 = edgePairs b := by
  unfold edgePairs
  rw [h]

/-- A whole-board equation transfers GoodBoard. -/
theorem goodBoard_of_board_eq {b b2 : Board} (h : b2 = b) (hg : GoodBoard b) :
    GoodBoard b2 := h ▸ hg

/-- The guards established by a passing canPlaceInitialSettlement: the
vertex exists and is empty, and no adjacent vertex is built. -/
theorem canPlaceInitialSettlement_guards (s : GameState) (pid vid : String)
    (h : canPlaceInitialSettlement s pid vid = true) :
    ∃ v, s.board.vertices.find? (fun w => w.id == vid) = some v ∧ v.building = none ∧
      ((getAdjacentVertices s.board vid).any fun w => w.building.isSome) = false := by
  unfold canPlaceInitialSettlement at h
  by_cases h1 : (s.phase != GamePhase.setup_settlement) = true
  · rw [if_pos h1] at h
    simp at h
  · rw [if_neg h1] at h
    cases hcur : currentPlayer? s with
    | none => rw [hcur] at h; simp at h
    | some cur =>
      rw [hcur] at h
      dsimp only at h
      by_cases h2 : (cur.id != pid) = true
      · rw [if_pos h2] at h
        simp at h
      · rw [if_neg h2] at h
        cases hfind : s.board.vertices.find? (fun w => w.id == vid) with
        | none => rw [hfind] at h; simp at h
        | some v =>
          rw [hfind] at h
          dsimp only at h
          by_cases h3 : v.building.isSome = true
          · rw [if_pos h3] at h
            simp at h
          · rw [if_neg h3] at h
            by_cases h4 : ((getAdjacentVertices s.board vid).any
                fun w => w.building.isSome) = true
            · rw [if_pos h4] at h
              simp at h
            · refine ⟨v, rfl, ?_, by simpa using h4⟩
              cases hb : v.building with
              | none => rfl
              | some bb => rw [hb] at h3; simp at h3

/-- The guards established by a passing canBuildSettlement: the vertex
exists and is empty, and no adjacent vertex is built. -/
theorem canBuildSettlement_guards (s : GameState) (pid vid : String)
    (h : canBuildSettlement s pid vid = true) :
    ∃ v, s.board.vertices.find? (fun w => w.id == vid) = some v ∧ v.building = none ∧
      ((getAdjacentVertices s.board vid).any fun w => w.building.isSome) = false := by
  unfold canBuildSettlement at h
  cases hp : getPlayerById s pid with
  | none => rw [hp] at h; simp at h
  | some p =>
    rw [hp] at h
    dsimp only at h
    by_cases h1 : p.settlementsBuilt ≥ settlementLimit
    · rw [if_pos h1] at h
      simp at h
    · rw [if_neg h1] at h
      cases hfind : s.board.vertices.find? (fun w => w.id == vid) with
      | none => rw [hfind] at h; simp at h
      | some v =>
        rw [hfind] at h
        dsimp only at h
        by_cases h3 : v.building.isSome = true
        · rw [if_pos h3] at h
          simp at h
        · rw [if_neg h3] at h
          by_cases h4 : (¬ hasResources p settlementCost = true)
          · rw [if_pos h4] at h
            simp at h
          · rw [if_neg h4] at h
            by_cases h5 : ((getAdjacentVertices s.board vid).any
                fun w => w.building.isSome) = true
            · rw [if_pos h5] at h
              simp at h
            · refine ⟨v, rfl, ?_, by simpa using h5⟩
              cases hb : v.building with
              | none => rfl
              | some bb => rw [hb] at h3; simp at h3

/-- The guard established by a passing canBuildCity: the target vertex holds
a settlement. -/
theorem canBuildCity_guards (s : GameState) (pid vid : String)
    (h : canBuildCity s pid vid = true) :
    ∃ v, s.board.vertices.find? (fun w => w.id == vid) = some v ∧
      v.building = some .settlement := by
  unfold canBuildCity at h
  cases hp : getPlayerById s pid with
  | none => rw [hp] at h; simp at h
  | some p =>
    rw [hp] at h
    dsimp only at h
    by_cases h1 : p.citiesBuilt ≥ cityLimit
    · rw [if_pos h1] at h
      simp at h
    · rw [if_neg h1] at h
      cases hfind : s.board.vertices.find? (fun w => w.id == vid) with
      | none => rw [hfind] at h; simp at h
      | some v =>
        rw [hfind] at h
        dsimp only at h
        by_cases h2 : (v.building != some BuildingType.settlement
            || v.playerId != some pid) = true
        · rw [if_pos h2] at h
          simp at h
        · refine ⟨v, rfl, ?_⟩
          simp only [Bool.or_eq_true, bne_iff_ne] at h2
          push_neg at h2
          exact h2.1

theorem placeInitialSettlement_good (s : GameState) (pid vid : String)
    (hg : GoodBoard s.board) :
    GoodBoard ((placeInitialSettlement s pid vid).2).board := by
  unfold placeInitialSettlement
  dsimp only
  split
  · exact hg
  · rename_i hcan
    have hc : canPlaceInitialSettlement s pid vid = true := by
      by_cases h : canPlaceInitialSettlement s pid vid = true
      · exact h
      · exact absurd h hcan
    rcases canPlaceInitialSettlement_guards s pid vid hc with ⟨v, hfind, hnone, hadj⟩
    exact goodBoard_place s.board vid pid v hfind hnone hadj hg

theorem placeInitialSettlement_hexes (s : GameState) (pid vid : String) :
    ((placeInitialSettlement s pid vid).2).board.hexes = s.board.hexes := by
  unfold placeInitialSettlement
  dsimp only
  split <;> rfl

theorem buildSettlement_good (s : GameState) (pid vid : String)
    (hg : GoodBoard s.board) :
    GoodBoard ((buildSettlement s pid vid).2).board := by
  unfold buildSettlement
  dsimp only
  split
  · exact hg
  · rename_i hcan
    have hc : canBuildSettlement s pid vid = true := by
      by_cases h : canBuildSettlement s pid vid = true
      · exact h
      · exact absurd h hcan
    rcases canBuildSettlement_guards s pid vid hc with ⟨v, hfind, hnone, hadj⟩
    rw [checkVictory_board]
    exact goodBoard_place s.board vid pid v hfind hnone hadj hg

theorem buildSettlement_hexes (s : GameState) (pid vid : String) :
    ((buildSettlement s pid vid).2).board.hexes = s.board.hexes := by
  unfold buildSettlement
  dsimp only
  split
  · rfl
  · rw [checkVictory_board]

theorem buildCity_good (s : GameState) (pid vid : String)
    (hg : GoodBoard s.board) :
    GoodBoard ((buildCity s pid vid).2).board := by
  unfold buildCity
  dsimp only
  split
  · exact hg
  · rename_i hcan
    have hc : canBuildCity s pid vid = true := by
      by_cases h : canBuildCity s pid vid = true
      · exact h
      · exact absurd h hcan
    rcases canBuildCity_guards s pid vid hc with ⟨v, hfind, hsett⟩
    rw [checkVictory_board]
    have hb2 : builtIds (boardCity s.board vid) = builtIds s.board :=
      builtIds_city s.board vid v hfind hsett
    have he2 : edgePairs (boardCity s.board vid) = edgePairs s.board := rfl
    exact goodBoard_transfer he2 hb2 hg

theorem buildCity_hexes (s : GameState) (pid vid : String) :
    ((buildCity s pid vid).2).board.hexes = s.board.hexes := by
  unfold buildCity
  dsimp only
  split
  · rfl
  · rw [checkVictory_board]

/-- A robber count of one transfers along a whole-board equation. -/
theorem robberCount_one_of_board_eq {b : Board} {s : GameState}
    (h : b = s.board) (hr : robberCount s.board = 1) : robberCount b = 1 := by
  rw [h]
  exact hr

/-- A robber count of one transfers along a hex-list equation. -/
theorem robberCount_one_of_hexes_eq {b : Board} {s : GameState}
    (h : b.hexes = s.board.hexes) (hr : robberCount s.board = 1) :
    robberCount b = 1 := by
  unfold robberCount
  rw [h]
  exact hr

/-- moveRobber touches only the hexes, so the distance-rule invariant is
untouched. -/
theorem moveRobber_good (s : GameState) (hid : String) (hg : GoodBoard s.board) :
    GoodBoard ((moveRobber s hid).2).board :=
  goodBoard_transfer (moveRobber_edgePairs s hid)
    (builtIds_congr (moveRobber_vertices s hid)) hg

theorem handlePlaceInitialSettlement_good (s : GameState) (a v : String)
    (hg : GoodBoard s.board) : GoodBoard (handlePlaceInitialSettlement s a v).board := by
  unfold handlePlaceInitialSettlement
  repeat' split
  all_goals first
    | exact hg
    | exact placeInitialSettlement_good s a v hg

theorem handlePlaceInitialRoad_good (s : GameState) (a e : String)
    (hg : GoodBoard s.board) : GoodBoard (handlePlaceInitialRoad s a e).board := by
  unfold handlePlaceInitialRoad
  repeat' split
  all_goals first
    | exact hg
    | exact goodBoard_transfer (placeInitialRoad_edgePairs s a e)
        (builtIds_congr (placeInitialRoad_vertices s a e)) hg

theorem handleRollDice_good (s : GameState) (a : String) (d1 d2 : Int)
    (hg : GoodBoard s.board) : GoodBoard (handleRollDice s a d1 d2).board := by
  unfold handleRollDice
  dsimp only
  repeat' split
  all_goals first
    | exact hg
    | exact goodBoard_of_board_eq (distributeResources_board _ _) hg

theorem handleBuildRoad_good (s : GameState) (a e : String)
    (hg : GoodBoard s.board) : GoodBoard (handleBuildRoad s a e).board := by
  unfold handleBuildRoad
  repeat' split
  all_goals first
    | exact hg
    | exact goodBoard_transfer (buildRoadFromRoadBuilding_edgePairs s a e)
        (builtIds_congr (buildRoadFromRoadBuilding_vertices s a e)) hg
    | exact goodBoard_transfer (buildRoad_edgePairs s a e false)
        (builtIds_congr (buildRoad_vertices s a e false)) hg

theorem handleBuildSettlement_good (s : GameState) (a v : String)
    (hg : GoodBoard s.board) : GoodBoard (handleBuildSettlement s a v).board := by
  unfold handleBuildSettlement
  repeat' split
  all_goals first
    | exact hg
    | exact buildSettlement_good s a v hg

theorem handleBuildCity_good (s : GameState) (a v : String)
    (hg : GoodBoard s.board) : GoodBoard (handleBuildCity s a v).board := by
  unfold handleBuildCity
  repeat' split
  all_goals first
    | exact hg
    | exact buildCity_good s a v hg

theorem handleStealResource_good (s : GameState) (a tg : String) (k : Nat)
    (hg : GoodBoard s.board) : GoodBoard (handleStealResource s a tg k).board := by
  unfold handleStealResource
  dsimp only
  repeat' split
  all_goals first
    | exact hg
    | exact goodBoard_of_board_eq (stealResource_board s tg k) hg

theorem handleCancelTrade_good (s : GameState) (a : String)
    (hg : GoodBoard s.board) : GoodBoard (handleCancelTrade s a).board := by
  unfold handleCancelTrade
  repeat' split
  all_goals exact hg

theorem handleBankTrade_good (s : GameState) (a : String) (g r : Resources)
    (hg : GoodBoard s.board) : GoodBoard (handleBankTrade s a g r).board := by
  unfold handleBankTrade
  repeat' split
  all_goals first
    | exact hg
    | exact goodBoard_of_board_eq (bankTrade_board s a g r) hg

theorem handleBuyDevCard_good (s : GameState) (a : String)
    (hg : GoodBoard s.board) : GoodBoard (handleBuyDevCard s a).board := by
  unfold handleBuyDevCard
  repeat' split
  all_goals first
    | exact hg
    | exact goodBoard_of_board_eq (buyDevCard_board s a) hg

theorem handlePlayKnight_good (s : GameState) (a : String)
    (hg : GoodBoard s.board) : GoodBoard (handlePlayKnight s a).board := by
  unfold handlePlayKnight
  repeat' split
  all_goals first
    | exact hg
    | exact goodBoard_of_board_eq (playKnight_board s a) hg

theorem handlePlayRoadBuilding_good (s : GameState) (a : String)
    (hg : GoodBoard s.board) : GoodBoard (handlePlayRoadBuilding s a).board := by
  unfold handlePlayRoadBuilding
  repeat' split
  all_goals first
    | exact hg
    | exact goodBoard_of_board_eq (playRoadBuilding_board s a) hg

theorem handlePlayYearOfPlenty_good (s : GameState) (a : String) (r1 r2 : ResourceType)
    (hg : GoodBoard s.board) : GoodBoard (handlePlayYearOfPlenty s a r1 r2).board := by
  unfold handlePlayYearOfPlenty
  repeat' split
  all_goals first
    | exact hg
    | exact goodBoard_of_board_eq (playYearOfPlenty_board s a r1 r2) hg

theorem handlePlayMonopoly_good (s : GameState) (a : String) (r : ResourceType)
    (hg : GoodBoard s.board) : GoodBoard (handlePlayMonopoly s a r).board := by
  unfold handlePlayMonopoly
  repeat' split
  all_goals first
    | exact hg
    | exact goodBoard_of_board_eq (playMonopoly_board s a r) hg

theorem handleEndTurn_good (s : GameState) (a : String)
    (hg : GoodBoard s.board) : GoodBoard (handleEndTurn s a).board := by
  unfold handleEndTurn
  repeat' split
  all_goals first
    | exact hg
    | exact goodBoard_of_board_eq (endTurn_board s) hg

theorem handleMoveRobber_good (s : GameState) (a x : String)
    (hg : GoodBoard s.board) : GoodBoard (handleMoveRobber s a x).board := by
  unfold handleMoveRobber
  split
  · exact hg
  · split
    · exact hg
    · split
      · exact hg
      · split
        · exact hg
        · rename_i s1 heq
          rw [show s1 = (moveRobber s x).2 from by rw [heq]]
          split
          · exact moveRobber_good s x hg
          · exact moveRobber_good s x hg

theorem handleDiscardResources_good (s : GameState) (a : String) (r : Resources)
    (hg : GoodBoard s.board) : GoodBoard (handleDiscardResources s a r).board := by
  unfold handleDiscardResources
  split
  · exact hg
  · split
    · exact hg
    · split
      · exact hg
      · rename_i s1 heq
        rw [show s1 = (discardHalfResources s a r).2 from by rw [heq]]
        split
        · exact goodBoard_of_board_eq (discardHalfResources_board s a r) hg
        · exact goodBoard_of_board_eq (discardHalfResources_board s a r) hg

theorem handleProposeTrade_good (s : GameState) (a : String) (dst : Option String)
    (o r : Resources) (hg : GoodBoard s.board) :
    GoodBoard (handleProposeTrade s a dst o r).board := by
  unfold handleProposeTrade
  split
  · exact hg
  · split
    · exact hg
    · split
      · exact hg
      · rename_i s1 heq
        rw [show s1 = (createTradeOffer s a dst o r).2 from by rw [heq]]
        exact goodBoard_of_board_eq (createTradeOffer_board s a dst o r) hg

theorem handleRespondToTrade_good (s : GameState) (a : String) (acc : Bool)
    (hg : GoodBoard s.board) : GoodBoard (handleRespondToTrade s a acc).board := by
  unfold handleRespondToTrade
  dsimp only
  repeat' split
  all_goals first
    | exact hg
    | exact goodBoard_of_board_eq (acceptTrade_board s) hg

theorem handlePlaceInitialSettlement_rc (s : GameState) (a v : String)
    (hr : robberCount s.board = 1) :
    robberCount (handlePlaceInitialSettlement s a v).board = 1 := by
  unfold handlePlaceInitialSettlement
  repeat' split
  all_goals first
    | exact hr
    | exact robberCount_one_of_hexes_eq (placeInitialSettlement_hexes s a v) hr

theorem handlePlaceInitialRoad_rc (s : GameState) (a e : String)
    (hr : robberCount s.board = 1) :
    robberCount (handlePlaceInitialRoad s a e).board = 1 := by
  unfold handlePlaceInitialRoad
  repeat' split
  all_goals first
    | exact hr
    | exact robberCount_one_of_hexes_eq (placeInitialRoad_hexes s a e) hr

theorem handleRollDice_rc (s : GameState) (a : String) (d1 d2 : Int)
    (hr : robberCount s.board = 1) :
    robberCount (handleRollDice s a d1 d2).board = 1 := by
  unfold handleRollDice
  dsimp only
  repeat' split
  all_goals first
    | exact hr
    | exact robberCount_one_of_board_eq (distributeResources_board _ _) hr

theorem handleBuildRoad_rc (s : GameState) (a e : String)
    (hr : robberCount s.board = 1) :
    robberCount (handleBuildRoad s a e).board = 1 := by
  unfold handleBuildRoad
  repeat' split
  all_goals first
    | exact hr
    | exact robberCount_one_of_hexes_eq (buildRoadFromRoadBuilding_hexes s a e) hr
    | exact robberCount_one_of_hexes_eq (buildRoad_hexes s a e false) hr

theorem handleBuildSettlement_rc (s : GameState) (a v : String)
    (hr : robberCount s.board = 1) :
    robberCount (handleBuildSettlement s a v).board = 1 := by
  unfold handleBuildSettlement
  repeat' split
  all_goals first
    | exact hr
    | exact robberCount_one_of_hexes_eq (buildSettlement_hexes s a v) hr

theorem handleBuildCity_rc (s : GameState) (a v : String)
    (hr : robberCount s.board = 1) :
    robberCount (handleBuildCity s a v).board = 1 := by
  unfold handleBuildCity
  repeat' split
  all_goals first
    | exact hr
    | exact robberCount_one_of_hexes_eq (buildCity_hexes s a v) hr

theorem handleMoveRobber_rc (s : GameState) (a x : String)
    (hr : robberCount s.board = 1) :
    robberCount (handleMoveRobber s a x).board = 1 := by
  unfold handleMoveRobber
  split
  · exact hr
  · split
    · exact hr
    · split
      · exact hr
      · split
        · exact hr
        · rename_i s1 heq
          rw [show s1 = (moveRobber s x).2 from by rw [heq]]
          split
          · exact moveRobber_robberCount s x hr
          · exact moveRobber_robberCount s x hr

theorem handleStealResource_rc (s : GameState) (a tg : String) (k : Nat)
    (hr : robberCount s.board = 1) :
    robberCount (handleStealResource s a tg k).board = 1 := by
  unfold handleStealResource
  dsimp only
  repeat' split
  all_goals first
    | exact hr
    | exact robberCount_one_of_board_eq (stealResource_board s tg k) hr

theorem handleDiscardResources_rc (s : GameState) (a : String) (r : Resources)
    (hr : robberCount s.board = 1) :
    robberCount (handleDiscardResources s a r).board = 1 := by
  unfold handleDiscardResources
  split
  · exact hr
  · split
    · exact hr
    · split
      · exact hr
      · rename_i s1 heq
        rw [show s1 = (discardHalfResources s a r).2 from by rw [heq]]
        split
        · exact robberCount_one_of_board_eq (discardHalfResources_board s a r) hr
        · exact robberCount_one_of_board_eq (discardHalfResources_board s a r) hr

theorem handleProposeTrade_rc (s : GameState) (a : String) (dst : Option String)
    (o r : Resources) (hr : robberCount s.board = 1) :
    robberCount (handleProposeTrade s a dst o r).board = 1 := by
  unfold handleProposeTrade
  split
  · exact hr
  · split
    · exact hr
    · split
      · exact hr
      · rename_i s1 heq
        rw [show s1 = (createTradeOffer s a dst o r).2 from by rw [heq]]
        exact robberCount_one_of_board_eq (createTradeOffer_board s a dst o r) hr

theorem handleRespondToTrade_rc (s : GameState) (a : String) (acc : Bool)
    (hr : robberCount s.board = 1) :
    robberCount (handleRespondToTrade s a acc).board = 1 := by
  unfold handleRespondToTrade
  dsimp only
  repeat' split
  all_goals first
    | exact hr
    | exact robberCount_one_of_board_eq (acceptTrade_board s) hr

theorem handleCancelTrade_rc (s : GameState) (a : String)
    (hr : robberCount s.board = 1) :
    robberCount (handleCancelTrade s a).board = 1 := by
  unfold handleCancelTrade
  repeat' split
  all_goals exact hr

theorem handleBankTrade_rc (s : GameState) (a : String) (g r : Resources)
    (hr : robberCount s.board = 1) :
    robberCount (handleBankTrade s a g r).board = 1 := by
  unfold handleBankTrade
  repeat' split
  all_goals first
    | exact hr
    | exact robberCount_one_of_board_eq (bankTrade_board s a g r) hr

theorem handleBuyDevCard_rc (s : GameState) (a : String)
    (hr : robberCount s.board = 1) :
    robberCount (handleBuyDevCard s a).board = 1 := by
  unfold handleBuyDevCard
  repeat' split
  all_goals first
    | exact hr
    | exact robberCount_one_of_board_eq (buyDevCard_board s a) hr

theorem handlePlayKnight_rc (s : GameState) (a : String)
    (hr : robberCount s.board = 1) :
    robberCount (handlePlayKnight s a).board = 1 := by
  unfold handlePlayKnight
  repeat' split
  all_goals first
    | exact hr
    | exact robberCount_one_of_board_eq (playKnight_board s a) hr

theorem handlePlayRoadBuilding_rc (s : GameState) (a : String)
    (hr : robberCount s.board = 1) :
    robberCount (handlePlayRoadBuilding s a).board = 1 := by
  unfold handlePlayRoadBuilding
  repeat' split
  all_goals first
    | exact hr
    | exact robberCount_one_of_board_eq (playRoadBuilding_board s a) hr

theorem handlePlayYearOfPlenty_rc (s : GameState) (a : String) (r1 r2 : ResourceType)
    (hr : robberCount s.board = 1) :
    robberCount (handlePlayYearOfPlenty s a r1 r2).board = 1 := by
  unfold handlePlayYearOfPlenty
  repeat' split
  all_goals first
    | exact hr
    | exact robberCount_one_of_board_eq (playYearOfPlenty_board s a r1 r2) hr

theorem handlePlayMonopoly_rc (s : GameState) (a : String) (r : ResourceType)
    (hr : robberCount s.board = 1) :
    robberCount (handlePlayMonopoly s a r).board = 1 := by
  unfold handlePlayMonopoly
  repeat' split
  all_goals first
    | exact hr
    | exact robberCount_one_of_board_eq (playMonopoly_board s a r) hr

theorem handleEndTurn_rc (s : GameState) (a : String)
    (hr : robberCount s.board = 1) :
    robberCount (handleEndTurn s a).board = 1 := by
  unfold handleEndTurn
  repeat' split
  all_goals first
    | exact hr
    | exact robberCount_one_of_board_eq (endTurn_board s) hr

/-- Every single client event preserves the board invariant. -/
theorem step_goodBoard {s t : GameState} (hst : Step s t)
    (hg : GoodBoard s.board) : GoodBoard t.board := by
  cases hst with
  | placeInitialSettlementStep a v => exact handlePlaceInitialSettlement_good s a v hg
  | placeInitialRoadStep a e => exact handlePlaceInitialRoad_good s a e hg
  | rollDiceStep a d1 d2 => exact handleRollDice_good s a d1 d2 hg
  | buildRoadStep a e => exact handleBuildRoad_good s a e hg
  | buildSettlementStep a v => exact handleBuildSettlement_good s a v hg
  | buildCityStep a v => exact handleBuildCity_good s a v hg
  | moveRobberStep a x => exact handleMoveRobber_good s a x hg
  | stealResourceStep a tg k => exact handleStealResource_good s a tg k hg
  | discardResourcesStep a r => exact handleDiscardResources_good s a r hg
  | proposeTradeStep a dst o r => exact handleProposeTrade_good s a dst o r hg
  | respondToTradeStep a acc => exact handleRespondToTrade_good s a acc hg
  | cancelTradeStep a => exact handleCancelTrade_good s a hg
  | bankTradeStep a g r => exact handleBankTrade_good s a g r hg
  | buyDevCardStep a => exact handleBuyDevCard_good s a hg
  | playKnightStep a => exact handlePlayKnight_good s a hg
  | playRoadBuildingStep a => exact handlePlayRoadBuilding_good s a hg
  | playYearOfPlentyStep a r1 r2 => exact handlePlayYearOfPlenty_good s a r1 r2 hg
  | playMonopolyStep a r => exact handlePlayMonopoly_good s a r hg
  | endTurnStep a => exact handleEndTurn_good s a hg

/-- The board invariant is preserved along any event sequence. -/
theorem reachable_goodBoard {s t : GameState} (hst : Reachable s t)
    (hg : GoodBoard s.board) : GoodBoard t.board := by
  induction hst with
  | refl => exact hg
  | tail hab hbc ih => exact step_goodBoard hbc ih

/-- Every single client event preserves the unique-robber count. -/
theorem step_robberCount {s t : GameState} (hst : Step s t)
    (hr : robberCount s.board = 1) : robberCount t.board = 1 := by
  cases hst with
  | placeInitialSettlementStep a v => exact handlePlaceInitialSettlement_rc s a v hr
  | placeInitialRoadStep a e => exact handlePlaceInitialRoad_rc s a e hr
  | rollDiceStep a d1 d2 => exact handleRollDice_rc s a d1 d2 hr
  | buildRoadStep a e => exact handleBuildRoad_rc s a e hr
  | buildSettlementStep a v => exact handleBuildSettlement_rc s a v hr
  | buildCityStep a v => exact handleBuildCity_rc s a v hr
  | moveRobberStep a x => exact handleMoveRobber_rc s a x hr
  | stealResourceStep a tg k => exact handleStealResource_rc s a tg k hr
  | discardResourcesStep a r => exact handleDiscardResources_rc s a r hr
  | proposeTradeStep a dst o r => exact handleProposeTrade_rc s a dst o r hr
  | respondToTradeStep a acc => exact handleRespondToTrade_rc s a acc hr
  | cancelTradeStep a => exact handleCancelTrade_rc s a hr
  | bankTradeStep a g r => exact handleBankTrade_rc s a g r hr
  | buyDevCardStep a => exact handleBuyDevCard_rc s a hr
  | playKnightStep a => exact handlePlayKnight_rc s a hr
  | playRoadBuildingStep a => exact handlePlayRoadBuilding_rc s a hr
  | playYearOfPlentyStep a r1 r2 => exact handlePlayYearOfPlenty_rc s a r1 r2 hr
  | playMonopolyStep a r => exact handlePlayMonopoly_rc s a r hr
  | endTurnStep a => exact handleEndTurn_rc s a hr

/-- The unique-robber count is preserved along any event sequence. -/
theorem reachable_robberCount {s t : GameState} (hst : Reachable s t)
    (hr : robberCount s.board = 1) : robberCount t.board = 1 := by
  induction hst with
  | refl => exact hr
  | tail hab hbc ih => exact step_robberCount hbc ih

/-- A board with no buildings satisfies the invariant as soon as its edges
have distinct endpoints. -/
theorem goodBoard_of_unbuilt (b : Board) (hb : ∀ v ∈ b.vertices, v.building = none)
    (hl : noSelfLoop b) : GoodBoard b := by
  refine ⟨hl, ?_⟩
  intro pr hpr hc
  rcases hc with ⟨h1, h2⟩
  rcases List.mem_map.mp h1 with ⟨w, hwf, hwid⟩
  rcases List.mem_filter.mp hwf with ⟨hwmem, hwsome⟩
  rw [hb w hwmem] at hwsome
  simp at hwsome

/-- An adjacent built vertex makes the initial-placement guard fail. -/
theorem canPlaceInitialSettlement_rejects_adjacent (s : GameState) (pid vid c : String)
    (hadj : c ∈ adjacentVertexIds s.board vid) (hbuilt : c ∈ builtIds s.board) :
    canPlaceInitialSettlement s pid vid = false := by
  by_cases h : canPlaceInitialSettlement s pid vid = true
  · rcases canPlaceInitialSettlement_guards s pid vid h with ⟨v, hfind, hnone, hany⟩
    exact absurd hbuilt (not_built_adjacent s.board vid hany c hadj)
  · simpa using h

/-- An adjacent built vertex makes the purchase guard fail. -/
theorem canBuildSettlement_rejects_adjacent (s : GameState) (pid vid c : String)
    (hadj : c ∈ adjacentVertexIds s.board vid) (hbuilt : c ∈ builtIds s.board) :
    canBuildSettlement s pid vid = false := by
  by_cases h : canBuildSettlement s pid vid = true
  · rcases canBuildSettlement_guards s pid vid h with ⟨v, hfind, hnone, hany⟩
    exact absurd hbuilt (not_built_adjacent s.board vid hany c hadj)
  · simpa using h

/-- An initial placement next to a built vertex fails and changes nothing. -/
theorem placeInitialSettlement_rejects_adjacent (s : GameState) (pid vid c : String)
    (hadj : c ∈ adjacentVertexIds s.board vid) (hbuilt : c ∈ builtIds s.board) :
    placeInitialSettlement s pid vid = (false, s) := by
  have h := canPlaceInitialSettlement_rejects_adjacent s pid vid c hadj hbuilt
  unfold placeInitialSettlement
  simp only [h]
  simp

/-- A settlement purchase next to a built vertex fails and changes nothing. -/
theorem buildSettlement_rejects_adjacent (s : GameState) (pid vid c : String)
    (hadj : c ∈ adjacentVertexIds s.board vid) (hbuilt : c ∈ builtIds s.board) :
    buildSettlement s pid vid = (false, s) := by
  have h := canBuildSettlement_rejects_adjacent s pid vid c hadj hbuilt
  unfold buildSettlement
  simp only [h]
  simp

/-- C5: placing a settlement (initial draft or purchase) onto
a vertex that shares an edge with a vertex carrying any building is
rejected, in every phase, and the whole state is returned unchanged;
consequently, starting from any state whose board carries no buildings and
has no self-loop edge, every reachable state satisfies the distance rule:
no edge of the board joins two built vertices. -/
theorem c5_settlement_distance_rule :
    (∀ (s : GameState) (pid vid c : String),
        c ∈ adjacentVertexIds s.board vid → c ∈ builtIds s.board →
        placeInitialSettlement s pid vid = (false, s) ∧
          buildSettlement s pid vid = (false, s)) ∧
    (∀ (s0 t : GameState),
        (∀ v ∈ s0.board.vertices, v.building = none) → noSelfLoop s0.board →
        Reachable s0 t → distanceRuleHolds t.board) := by
  constructor
  · intro s pid vid c hadj hbuilt
    exact ⟨placeInitialSettlement_rejects_adjacent s pid vid c hadj hbuilt,
           buildSettlement_rejects_adjacent s pid vid c hadj hbuilt⟩
  · intro s0 t hb hl hreach
    exact (reachable_goodBoard hreach (goodBoard_of_unbuilt s0.board hb hl)).2

/-- Closed instance of the distance-rule theorem: on the setup fixture the
vertex vD is adjacent to the built vertex vC, so both placement forms
reject, and the unbuilt starting fixture satisfies the distance rule. -/
theorem c5_witness :
    (placeInitialSettlement c1AfterFirstSettlement "P0" "vD"
        = (false, c1AfterFirstSettlement) ∧
      buildSettlement c1AfterFirstSettlement "P0" "vD"
        = (false, c1AfterFirstSettlement)) ∧
    distanceRuleHolds c1State.board :=
  ⟨c5_settlement_distance_rule.1 c1AfterFirstSettlement "P0" "vD" "vC"
      (by decide) (by decide),
   c5_settlement_distance_rule.2 c1State c1State (by decide)
      (by unfold noSelfLoop; decide) Relation.ReflTransGen.refl⟩

/-- The hex construction loop puts the robber on exactly the desert
entries of its input list. -/
theorem countP_mkHexes (l : List ((Int × Int) × TerrainType)) :
    ∀ nums : List Int,
      (mkHexes l nums).countP (fun h => h.hasRobber)
        = l.countP (fun p => p.2 == TerrainType.desert) := by
  induction l with
  | nil =>
    intro nums
    rfl
  | cons a rest ih =>
    intro nums
    obtain ⟨qr, t⟩ := a
    by_cases hd : (t == TerrainType.desert) = true
    · simp [mkHexes, hd, List.countP_cons, ih nums]
    · simp [mkHexes, hd, List.countP_cons, ih nums.tail]

/-- Counting a property of the second components over a zip of equal-length
lists counts it over the second list. -/
theorem countP_zip_snd {α β : Type} (q : β → Bool) :
    ∀ (l1 : List α) (l2 : List β), l1.length = l2.length →
      (l1.zip l2).countP (fun p => q p.2) = l2.countP q := by
  intro l1
  induction l1 with
  | nil =>
    intro l2 hlen
    cases l2 with
    | nil => rfl
    | cons b t2 => simp at hlen
  | cons a t1 ih =>
    intro l2 hlen
    cases l2 with
    | nil => simp at hlen
    | cons b t2 =>
      simp only [List.zip_cons_cons, List.countP_cons]
      rw [ih t2 (by simpa using hlen)]

/-- Board generation over any shuffle of the terrain distribution and any
number queue produces exactly one robber hex: the single desert. -/
theorem generateBoard_robberCount (terrains : List TerrainType) (nums : List Int)
    (hperm : terrains.Perm TERRAIN_DISTRIBUTION) :
    (mkHexes (HEX_COORDS.zip terrains) nums).countP (fun h => h.hasRobber) = 1 := by
  have hlen : HEX_COORDS.length = terrains.length := by
    rw [hperm.length_eq]
    decide
  rw [countP_mkHexes,
    countP_zip_snd (fun t => t == TerrainType.desert) HEX_COORDS terrains hlen,
    hperm.countP_eq]
  decide

/-- A two-hex fixture whose first hex holds the robber. -/
def c9Board : Board :=
  { hexes := [{ freshHex "hexA" .wheat (some 5) with hasRobber := true },
              freshHex "hexB" .ore (some 9)],
    vertices := [], edges := [], harbors := [] }

/-- A game over the robber fixture. -/
def c9State : GameState := baseState c9Board [freshPlayer "P0"]

/-- C9: board generation places the robber on the single desert hex of any
shuffled terrain distribution; moveRobber preserves a robber count of one
(it clears the old hex before setting the new one); and every state
reachable by client events from a single-robber state has exactly one hex
with the robber. -/
theorem c9_single_robber :
    (∀ (terrains : List TerrainType) (nums : List Int),
        terrains.Perm TERRAIN_DISTRIBUTION →
        (mkHexes (HEX_COORDS.zip terrains) nums).countP (fun h => h.hasRobber) = 1) ∧
    (∀ (s : GameState) (hid : String),
        robberCount s.board = 1 → robberCount ((moveRobber s hid).2).board = 1) ∧
    (∀ (s0 t : GameState),
        robberCount s0.board = 1 → Reachable s0 t → robberCount t.board = 1) := by
  refine ⟨generateBoard_robberCount, moveRobber_robberCount, ?_⟩
  intro s0 t h1 hreach
  exact reachable_robberCount hreach h1

/-- Closed instance of the robber-uniqueness theorem: the unshuffled terrain
distribution, a concrete robber move, and the reflexive reachability case. -/
theorem c9_witness :
    (mkHexes (HEX_COORDS.zip TERRAIN_DISTRIBUTION) []).countP (fun h => h.hasRobber) = 1 ∧
    robberCount ((moveRobber c9State "hexB").2).board = 1 ∧
    robberCount c9State.board = 1 :=
  ⟨c9_single_robber.1 TERRAIN_DISTRIBUTION [] (List.Perm.refl TERRAIN_DISTRIBUTION),
   c9_single_robber.2.1 c9State "hexB" (by decide),
   c9_single_robber.2.2 c9State c9State (by decide) Relation.ReflTransGen.refl⟩

end Catan
